import Mathlib

/-!
Verification of the stage-2 structural parser of a two-stage JSON engine
(`src/generic/stage2/structural_parser.h`).

The stage-2 driver walks the structural-index array produced by stage 1 and
drives a pluggable builder through grammar events.  We embed the driver as a
fuel-based state machine whose states are the `goto` labels of the source
(`generic_object_begin`, `object_colon`, `object_value`, `object_next`,
`generic_array_begin`, `array_value`, `array_next`, `generic_next`), and whose
terminal `document_end` block is inlined.

Machine bytes are `Nat`; the input buffer and the structural index array are
`List Nat`.  The builder is abstract: each callback is a function of the
events emitted so far (its state) and the event, returning an error code; a
separate function lets it update the parser's `depth` field, as the concrete
builders do through the `parser` reference they receive.  The driver itself
never touches `depth`.

Ghost instrumentation (the `trace` of emitted events and the `ops` list of
cursor positions after each cursor mutation) is carried in the context so the
event-ordering and cursor-monotonicity claims can be stated; it never feeds
back into control flow.
-/

namespace Stage2

/-- Error codes surfaced by the engine (spec §6 taxonomy). -/
inductive ErrorCode where
  | SUCCESS
  | EMPTY
  | TAPE_ERROR
  | INCORRECT_TYPE
  | NUMBER_ERROR
  | STRING_ERROR
  | UTF8_ERROR
  | DEPTH_ERROR
deriving DecidableEq

/-- Byte value of the opening brace. -/
def LBRACE : Nat := 123
/-- Byte value of the closing brace. -/
def RBRACE : Nat := 125
/-- Byte value of the opening bracket. -/
def LBRACK : Nat := 91
/-- Byte value of the closing bracket. -/
def RBRACK : Nat := 93
/-- Byte value of the comma. -/
def COMMA : Nat := 44
/-- Byte value of the colon. -/
def COLON : Nat := 58
/-- Byte value of the double quote. -/
def QUOTE : Nat := 34

/-- Builder callback events, one constructor per callback of the builder
contract invoked by `structural_parser::parse`.  `Nat` arguments are byte
offsets into the buffer standing for the `key`/`value` pointers the source
passes.  `try_resume_array` has an optional value argument, matching its two
overloads. -/
inductive Event where
  | start_document
  | root_primitive (value : Nat)
  | empty_object
  | start_object
  | end_object
  | empty_object_field (key : Nat)
  | start_object_field (key : Nat)
  | primitive_field (key : Nat) (value : Nat)
  | empty_array
  | start_array
  | end_array
  | empty_array_field (key : Nat)
  | start_array_field (key : Nat)
  | primitive (value : Nat)
  | try_resume_object
  | try_resume_array (value : Option Nat)
  | try_end_object
  | try_end_array
  | end_document
deriving DecidableEq

/-- The parts of `dom_parser_implementation` the stage-2 driver uses: the
input buffer, the structural index array, and the `next_structural_index`
persisted across streaming calls. -/
structure DomParser where
  buf : List Nat
  structural_indexes : List Nat
  next_structural_index : Nat
deriving DecidableEq

/-- `n_structural_indexes`: the number of structural indexes.  Stage 1
guarantees it equals the length of the array, so we define it that way. -/
def DomParser.n_structural_indexes (dp : DomParser) : Nat :=
  dp.structural_indexes.length

/-- Modelled from the spec: reading a byte of the padded buffer
(`structural_iterator` and the padding contract of §3/§4.1 are not under
`src/`).  Reads beyond the logical end land in the sentinel padding, which we
model as byte `0` (not a structural character). -/
def DomParser.byteAt (dp : DomParser) (off : Nat) : Nat :=
  dp.buf.getD off 0

/-- Modelled from the spec: `structural_indexes[i]`.  Stage 1 pads the index
array so that reads past `n_structural_indexes` yield an offset in the
buffer's sentinel padding; we model such reads as offset `buf.length`. -/
def DomParser.idxAt (dp : DomParser) (i : Nat) : Nat :=
  dp.structural_indexes.getD i dp.buf.length

/-- The structural byte at cursor position `i`: `buf[structural_indexes[i]]`. -/
def DomParser.tok (dp : DomParser) (i : Nat) : Nat :=
  dp.byteAt (dp.idxAt i)

/-- The abstract builder: `onEvent` returns the error code of a callback as a
function of the events received so far and the new event; `onDepth` is the
callback's effect on the parser's `depth` field (the source passes `*this`,
so callbacks may read and write `depth`; they do not move the cursor, which
in tape mode is owned by the driver, spec §2/§4.2). -/
structure Builder where
  onEvent : List Event → Event → ErrorCode
  onDepth : List Event → Event → Nat → Nat

/-- The mutable state of a parse call: the session (`dp`), the iterator
cursor (`next_structural` as an index into the structural array), the
parser's `depth` field, plus ghost observers: the `trace` of events emitted
to the builder and the `ops` list of cursor values after each cursor
mutation. -/
structure Ctx where
  dp : DomParser
  cursor : Nat
  depth : Nat
  trace : List Event
  ops : List Nat
deriving DecidableEq

/-- Modelled from the spec: `structural_iterator::at_end`, true iff the
cursor equals `n_structural_indexes` (§4.1). -/
def Ctx.at_end (c : Ctx) : Bool :=
  c.cursor == c.dp.n_structural_indexes

/-- The buffer offset the cursor points at (the pointer `advance()` returns). -/
def Ctx.curOff (c : Ctx) : Nat :=
  c.dp.idxAt c.cursor

/-- The structural byte the cursor points at (what `advance_char()` returns). -/
def Ctx.curByte (c : Ctx) : Nat :=
  c.dp.byteAt c.curOff

/-- Modelled from the spec: the cursor increment of
`structural_iterator::advance` (§4.1); the value read is `curOff`/`curByte`
of the state before the increment.  Records the new cursor in `ops`. -/
def Ctx.adv (c : Ctx) : Ctx :=
  { c with cursor := c.cursor + 1, ops := c.ops ++ [c.cursor + 1] }

/-- Modelled from the spec: `back_up()` decrements the cursor by one (§4.1);
the source writes `next_structural--`.  Records the new cursor in `ops`. -/
def Ctx.back_up (c : Ctx) : Ctx :=
  { c with cursor := c.cursor - 1, ops := c.ops ++ [c.cursor - 1] }

/-- Invoke a builder callback: the event is recorded in the ghost trace, and
the callback may update `depth`. -/
def emit (b : Builder) (c : Ctx) (ev : Event) : ErrorCode × Ctx :=
  (b.onEvent c.trace ev,
   { c with depth := b.onDepth c.trace ev c.depth, trace := c.trace ++ [ev] })

/-- `SIMDJSON_TRY`: run the callback; continue with `k` on `SUCCESS`,
otherwise return the callback's error code unchanged. -/
def tryEmit (b : Builder) (c : Ctx) (ev : Event)
    (k : Ctx → Option (ErrorCode × Ctx)) : Option (ErrorCode × Ctx) :=
  if (emit b c ev).1 = ErrorCode.SUCCESS then k (emit b c ev).2
  else some (emit b c ev)

/-- `structural_parser::finish<STREAMING>`: writes
`dom_parser.next_structural_index` from the cursor first, then checks for
unclosed containers (`depth != 0`) and, when not streaming, for residual
structural tokens. -/
def finish (streaming : Bool) (c : Ctx) : ErrorCode × Ctx :=
  let c' : Ctx := { c with dp := { c.dp with next_structural_index := c.cursor } }
  if c'.depth ≠ 0 then (ErrorCode.TAPE_ERROR, c')
  else if streaming = false ∧ c'.cursor ≠ c'.dp.n_structural_indexes then
    (ErrorCode.TAPE_ERROR, c')
  else (ErrorCode.SUCCESS, c')

/-- The `document_end` block: emit `end_document`, then `finish`. -/
def docEnd (streaming : Bool) (b : Builder) (c : Ctx) : ErrorCode × Ctx :=
  if (emit b c Event.end_document).1 = ErrorCode.SUCCESS then
    finish streaming (emit b c Event.end_document).2
  else emit b c Event.end_document

/-- The `goto` labels of `structural_parser::parse`.  `object_colon` and
`object_value` carry the key offset held in the `value` register at entry;
`array_value` carries the value offset (`array_value` is entered with the
value token already advanced past). -/
inductive PState where
  | generic_object_begin
  | object_colon (key : Nat)
  | object_value (key : Nat)
  | object_next
  | generic_array_begin
  | array_value (voff : Nat)
  | array_next
  | generic_next
deriving DecidableEq

/-- The state-machine loop of `structural_parser::parse`, one source `goto`
label per `PState` case, driven by fuel (each step consumes one unit; `none`
means the fuel ran out, which never happens for sufficient fuel).  `advance`
is rendered as reading `curOff`/`curByte` and then `adv`. -/
def run (streaming : Bool) (b : Builder) :
    Nat → PState → Ctx → Option (ErrorCode × Ctx)
  | 0, _, _ => none
  | fuel+1, st, c =>
    match st with
    | PState.generic_object_begin =>
      -- switch (*(value = advance()))
      let off := c.curOff
      let c1 := c.adv
      if c1.dp.byteAt off = RBRACE then
        tryEmit b c1 Event.empty_object (fun c2 =>
          run streaming b fuel PState.generic_next c2)
      else if c1.dp.byteAt off = QUOTE then
        tryEmit b c1 Event.start_object (fun c2 =>
          run streaming b fuel (PState.object_colon off) c2)
      else some (ErrorCode.TAPE_ERROR, c1)
    | PState.object_colon key =>
      -- if (advance_char() != ':') error
      let ch := c.curByte
      let c1 := c.adv
      if ch = COLON then run streaming b fuel (PState.object_value key) c1
      else some (ErrorCode.TAPE_ERROR, c1)
    | PState.object_value key =>
      -- switch (*(value = advance()))
      let off := c.curOff
      let c1 := c.adv
      if c1.dp.byteAt off = LBRACE then
        let off2 := c1.curOff
        let c2 := c1.adv
        if c2.dp.byteAt off2 = RBRACE then
          tryEmit b c2 (Event.empty_object_field key) (fun c3 =>
            run streaming b fuel PState.object_next c3)
        else if c2.dp.byteAt off2 = QUOTE then
          tryEmit b c2 (Event.start_object_field key) (fun c3 =>
            run streaming b fuel (PState.object_colon off2) c3)
        else some (ErrorCode.TAPE_ERROR, c2)
      else if c1.dp.byteAt off = LBRACK then
        let off2 := c1.curOff
        let c2 := c1.adv
        if c2.dp.byteAt off2 = RBRACK then
          tryEmit b c2 (Event.empty_array_field key) (fun c3 =>
            run streaming b fuel PState.object_next c3)
        else
          tryEmit b c2 (Event.start_array_field key) (fun c3 =>
            run streaming b fuel (PState.array_value off2) c3)
      else
        tryEmit b c1 (Event.primitive_field key off) (fun c2 =>
          run streaming b fuel PState.object_next c2)
    | PState.object_next =>
      -- switch (advance_char())
      let ch := c.curByte
      let c1 := c.adv
      if ch = COMMA then
        let off := c1.curOff
        let c2 := c1.adv
        if c2.dp.byteAt off = QUOTE then
          run streaming b fuel (PState.object_colon off) c2
        else some (ErrorCode.TAPE_ERROR, c2)
      else if ch = RBRACE then
        tryEmit b c1 Event.end_object (fun c2 =>
          run streaming b fuel PState.generic_next c2)
      else some (ErrorCode.TAPE_ERROR, c1)
    | PState.generic_array_begin =>
      -- switch (*(value = advance()))
      let off := c.curOff
      let c1 := c.adv
      if c1.dp.byteAt off = RBRACK then
        tryEmit b c1 Event.empty_array (fun c2 =>
          run streaming b fuel PState.generic_next c2)
      else
        tryEmit b c1 Event.start_array (fun c2 =>
          run streaming b fuel (PState.array_value off) c2)
    | PState.array_value voff =>
      -- switch (*value), value already advanced past
      if c.dp.byteAt voff = LBRACE then
        let off2 := c.curOff
        let c1 := c.adv
        if c1.dp.byteAt off2 = RBRACE then
          tryEmit b c1 Event.empty_object (fun c2 =>
            run streaming b fuel PState.array_next c2)
        else if c1.dp.byteAt off2 = QUOTE then
          tryEmit b c1 Event.start_object (fun c2 =>
            run streaming b fuel (PState.object_colon off2) c2)
        else some (ErrorCode.TAPE_ERROR, c1)
      else if c.dp.byteAt voff = LBRACK then
        let off2 := c.curOff
        let c1 := c.adv
        if c1.dp.byteAt off2 = RBRACK then
          tryEmit b c1 Event.empty_array (fun c2 =>
            run streaming b fuel PState.array_next c2)
        else
          tryEmit b c1 Event.start_array (fun c2 =>
            run streaming b fuel (PState.array_value off2) c2)
      else
        tryEmit b c (Event.primitive voff) (fun c1 =>
          run streaming b fuel PState.array_next c1)
    | PState.array_next =>
      -- switch (advance_char())
      let ch := c.curByte
      let c1 := c.adv
      if ch = COMMA then
        let off := c1.curOff
        let c2 := c1.adv
        run streaming b fuel (PState.array_value off) c2
      else if ch = RBRACK then
        tryEmit b c1 Event.end_array (fun c2 =>
          run streaming b fuel PState.generic_next c2)
      else some (ErrorCode.TAPE_ERROR, c1)
    | PState.generic_next =>
      -- switch (advance_char())
      let ch := c.curByte
      let c1 := c.adv
      if ch = COMMA then
        let off := c1.curOff
        let c2 := c1.adv
        if c2.dp.byteAt off = QUOTE then
          let ch2 := c2.curByte
          let c3 := c2.adv
          if ch2 = COLON then
            tryEmit b c3 Event.try_resume_object (fun c4 =>
              run streaming b fuel (PState.object_value off) c4)
          else if ch2 = COMMA then
            tryEmit b c3 (Event.try_resume_array (some off)) (fun c4 =>
              run streaming b fuel (PState.array_value off) c4)
          else if ch2 = RBRACK then
            tryEmit b c3 (Event.try_resume_array (some off)) (fun c4 =>
              tryEmit b c4 Event.end_array (fun c5 =>
                run streaming b fuel PState.generic_next c5))
          else some (ErrorCode.TAPE_ERROR, c3)
        else if c2.dp.byteAt off = LBRACK then
          tryEmit b c2 (Event.try_resume_array none) (fun c3 =>
            run streaming b fuel PState.generic_array_begin c3)
        else if c2.dp.byteAt off = LBRACE then
          tryEmit b c2 (Event.try_resume_array none) (fun c3 =>
            run streaming b fuel PState.generic_object_begin c3)
        else
          tryEmit b c2 (Event.try_resume_array none) (fun c3 =>
            run streaming b fuel (PState.array_value off) c3)
      else if ch = RBRACK then
        tryEmit b c1 Event.try_end_array (fun c2 =>
          run streaming b fuel PState.generic_next c2)
      else if ch = RBRACE then
        tryEmit b c1 Event.try_end_object (fun c2 =>
          run streaming b fuel PState.generic_next c2)
      else
        -- not , ] or }: we might be at document end; we overcorrected, back up
        some (docEnd streaming b c1.back_up)

/-- The initial context of a parse call: the static
`structural_parser::parse` constructs the parser with
`STREAMING ? dom_parser.next_structural_index : 0` as the start cursor and
`depth` 0. -/
def initCtx (streaming : Bool) (dp : DomParser) : Ctx :=
  { dp := dp, cursor := if streaming then dp.next_structural_index else 0,
    depth := 0, trace := [], ops := [] }

/-- `structural_parser::parse<STREAMING>`: the document-start block (the
`EMPTY` check, `start_document`, the first-value dispatch with the
non-streaming top-level-array pre-check) followed by the state machine. -/
def parse (streaming : Bool) (b : Builder) (fuel : Nat) (dp : DomParser) :
    Option (ErrorCode × Ctx) :=
  let c := initCtx streaming dp
  if c.at_end then some (ErrorCode.EMPTY, c)
  else
    tryEmit b c Event.start_document (fun c1 =>
      let off := c1.curOff
      let c2 := c1.adv
      if c2.dp.byteAt off = LBRACE then
        run streaming b fuel PState.generic_object_begin c2
      else if c2.dp.byteAt off = LBRACK then
        if streaming = false ∧
            c2.dp.tok (c2.dp.n_structural_indexes - 1) ≠ RBRACK then
          some (ErrorCode.TAPE_ERROR, c2)
        else run streaming b fuel PState.generic_array_begin c2
      else
        tryEmit b c2 (Event.root_primitive off) (fun c3 =>
          some (docEnd streaming b c3)))

/-- The on-demand "do nothing" builder: every callback succeeds and leaves
`depth` alone. -/
def noopBuilder : Builder :=
  { onEvent := fun _ _ => ErrorCode.SUCCESS, onDepth := fun _ _ d => d }

/-- Container kinds for the builder's kind stack. -/
inductive JKind where
  | kobj
  | karr
deriving DecidableEq

/-- Modelled from the spec: the effect of one builder event on the builder's
stack of container kinds (the concrete tape builder is not under `src/`;
spec §9: "Builders maintain a stack of kinds; on `try_end`, pop and check;
on `try_resume`, peek"). -/
def stackDelta (ev : Event) (s : List JKind) : List JKind :=
  match ev with
  | Event.start_object => JKind.kobj :: s
  | Event.start_object_field _ => JKind.kobj :: s
  | Event.start_array => JKind.karr :: s
  | Event.start_array_field _ => JKind.karr :: s
  | Event.end_object => s.tail
  | Event.end_array => s.tail
  | Event.try_end_object => s.tail
  | Event.try_end_array => s.tail
  | _ => s

/-- The kind stack a conforming builder holds after a trace of events. -/
def stackOf (t : List Event) : List JKind :=
  t.foldl (fun s e => stackDelta e s) []

/-- Modelled from the spec: a conforming builder (spec §4.3 and §9).  It
keeps a stack of container kinds; `try_resume_*` peeks it and `try_end_*`
pops it, failing with `TAPE_ERROR` on a mismatch; all other callbacks
succeed.  It maintains the parser's `depth`: +1 on each entered container,
-1 on each closed one (spec §3, nesting depth). -/
def modelBuilder : Builder where
  onEvent := fun t ev =>
    match ev with
    | Event.try_resume_object =>
      if (stackOf t).head? = some JKind.kobj then ErrorCode.SUCCESS
      else ErrorCode.TAPE_ERROR
    | Event.try_resume_array _ =>
      if (stackOf t).head? = some JKind.karr then ErrorCode.SUCCESS
      else ErrorCode.TAPE_ERROR
    | Event.try_end_object =>
      if (stackOf t).head? = some JKind.kobj then ErrorCode.SUCCESS
      else ErrorCode.TAPE_ERROR
    | Event.try_end_array =>
      if (stackOf t).head? = some JKind.karr then ErrorCode.SUCCESS
      else ErrorCode.TAPE_ERROR
    | _ => ErrorCode.SUCCESS
  onDepth := fun _ ev d =>
    match ev with
    | Event.start_object => d + 1
    | Event.start_object_field _ => d + 1
    | Event.start_array => d + 1
    | Event.start_array_field _ => d + 1
    | Event.end_object => d - 1
    | Event.end_array => d - 1
    | Event.try_end_object => d - 1
    | Event.try_end_array => d - 1
    | _ => d

/-! ### Concrete inputs used by the claims -/

/-- A view of a parse result: code, emitted event trace, persisted
`next_structural_index`. -/
def resultView (r : ErrorCode × Ctx) : ErrorCode × List Event × Nat :=
  (r.1, r.2.trace, r.2.dp.next_structural_index)

/-- The input `{"a":1,"b":[true,null]}` of spec scenario 1: 23 bytes, 13
structural indexes. -/
def dpScenario1 : DomParser :=
  { buf := [123,34,97,34,58,49,44,34,98,34,58,91,116,114,117,101,44,110,117,108,108,93,125],
    structural_indexes := [0,1,4,5,6,7,10,11,12,16,17,21,22],
    next_structural_index := 0 }

/-- The streaming input `1 2 3` of spec scenario 6: bytes `49 32 50 32 51`,
structural indexes 0, 2, 4. -/
def dpOneTwoThree : DomParser :=
  { buf := [49,32,50,32,51], structural_indexes := [0,2,4], next_structural_index := 0 }

/-! ### C10: `finish` updates `next_structural_index` before its checks -/

/-- C10: `structural_parser::finish` writes `dom_parser.next_structural_index`
from the current cursor position before the unclosed-container and
residual-token checks, so the write happens on every path, in particular when
`finish` returns `TAPE_ERROR`: the session state is not left unchanged on
these errors. -/
theorem c10_finish_writes_next_structural_index :
    ∀ (streaming : Bool) (c : Ctx),
      (finish streaming c).2.dp.next_structural_index = c.cursor ∧
      ((finish streaming c).1 = ErrorCode.TAPE_ERROR →
        (finish streaming c).2.dp.next_structural_index = c.cursor) := by
  intro streaming c
  refine ⟨?_, fun _ => ?_⟩ <;>
    · simp only [finish]
      split
      · rfl
      · split <;> rfl

/-! ### C8: empty structural index array yields `EMPTY` before any callback -/

/-- C8: if the iterator is `at_end` at the start of `parse` (for a
non-streaming call this means the structural index array is empty), `parse`
returns `EMPTY` without invoking any builder callback — the trace is empty,
so not even `start_document` was emitted. -/
theorem c8_empty_input_returns_empty_without_callbacks :
    ∀ (streaming : Bool) (b : Builder) (fuel : Nat) (dp : DomParser),
      (initCtx streaming dp).at_end = true →
      parse streaming b fuel dp = some (ErrorCode.EMPTY, initCtx streaming dp) ∧
      (initCtx streaming dp).trace = [] := by
  intro streaming b fuel dp h
  refine ⟨?_, rfl⟩
  simp only [parse, h, if_true]

/-- Witness for C8: the non-streaming parse of an input with no structural
indexes returns `EMPTY` with an empty event trace. -/
theorem c8_witness :
    (initCtx false { buf := [32], structural_indexes := [], next_structural_index := 0 }).at_end
      = true ∧
    parse false noopBuilder 5
        { buf := [32], structural_indexes := [], next_structural_index := 0 } =
      some (ErrorCode.EMPTY,
        initCtx false { buf := [32], structural_indexes := [], next_structural_index := 0 }) :=
  ⟨by decide,
   (c8_empty_input_returns_empty_without_callbacks false noopBuilder 5
     { buf := [32], structural_indexes := [], next_structural_index := 0 } (by decide)).1⟩

/-! ### C5: streaming `1 2 3`, three calls then `EMPTY` -/

/-- One streaming parse call with the noop builder and fuel 10, as chained in
spec scenario 6. -/
def streamCall (dp : DomParser) : Option (ErrorCode × Ctx) :=
  parse true noopBuilder 10 dp

/-- C5: on the streaming input `1 2 3` (bytes `'1'`, `'2'`, `'3'` at offsets
0, 2, 4), three consecutive `parse<true>` calls each return `SUCCESS` with
`root_primitive` invoked on the offsets of `1`, `2`, `3` respectively —
`next_structural_index` persists across calls (1, then 2, then 3) — and a
fourth call returns `EMPTY`. -/
theorem c5_streaming_one_two_three :
    (streamCall dpOneTwoThree).map resultView =
      some (ErrorCode.SUCCESS,
        [Event.start_document, Event.root_primitive 0, Event.end_document], 1) ∧
    ((streamCall dpOneTwoThree).bind (fun r => streamCall r.2.dp)).map resultView =
      some (ErrorCode.SUCCESS,
        [Event.start_document, Event.root_primitive 2, Event.end_document], 2) ∧
    (((streamCall dpOneTwoThree).bind (fun r => streamCall r.2.dp)).bind
        (fun r => streamCall r.2.dp)).map resultView =
      some (ErrorCode.SUCCESS,
        [Event.start_document, Event.root_primitive 4, Event.end_document], 3) ∧
    ((((streamCall dpOneTwoThree).bind (fun r => streamCall r.2.dp)).bind
        (fun r => streamCall r.2.dp)).bind
        (fun r => streamCall r.2.dp)).map (fun r => r.1) =
      some ErrorCode.EMPTY ∧
    dpOneTwoThree.byteAt 0 = 49 ∧ dpOneTwoThree.byteAt 2 = 50 ∧
    dpOneTwoThree.byteAt 4 = 51 :=
  ⟨rfl, rfl, rfl, rfl, rfl, rfl, rfl⟩

/-! ### C3: event sequence for `{"a":1,"b":[true,null]}` -/

/-- Counterexample for C3: the claimed event sequence has 11 events
(`start_document, start_object, start_*_field("a"), primitive(1),
primitive_field("b"), start_array, primitive(true), primitive(null),
end_array, end_object, end_document`), but the parser emits exactly 9 events
on this input (and returns `SUCCESS`), so the emitted sequence cannot be the
claimed one under either reading of `start_*_field`. -/
theorem c3_counterexample :
    (parse false modelBuilder 40 dpScenario1).map (fun r => (r.1, r.2.trace.length)) =
      some (ErrorCode.SUCCESS, 9) ∧ (9 : Nat) ≠ 11 :=
  ⟨rfl, by decide⟩

/-- C3 (amended): parsing `{"a":1,"b":[true,null]}` emits to the builder
exactly `start_document, start_object, primitive_field("a", 1),
start_array_field("b"), primitive(true), primitive(null), end_array,
try_end_object, end_document` — the state machine emits one
`primitive_field` event for `"a":1`, enters the array through
`start_array_field("b")`, and closes the object through the `generic_next`
fan-in as `try_end_object` — and `parse` returns `SUCCESS`.  (Key/value
arguments are byte offsets: key `"a"` is offset 1, value `1` offset 5, key
`"b"` offset 7, `true` offset 12, `null` offset 17.) -/
theorem c3_amended_event_sequence :
    (parse false modelBuilder 40 dpScenario1).map (fun r => (r.1, r.2.trace)) =
      some (ErrorCode.SUCCESS,
        [Event.start_document, Event.start_object, Event.primitive_field 1 5,
         Event.start_array_field 7, Event.primitive 12, Event.primitive 17,
         Event.end_array, Event.try_end_object, Event.end_document]) := rfl

/-! ### Inversion helpers -/

/-- Unfold a `tryEmit` that produced a result: either the callback succeeded
and the continuation produced the result, or the callback's error is returned
as is. -/
lemma tryEmit_some {b : Builder} {c : Ctx} {ev : Event} {k : Ctx → Option (ErrorCode × Ctx)}
    {code : ErrorCode} {c' : Ctx} (h : tryEmit b c ev k = some (code, c')) :
    ((emit b c ev).1 = ErrorCode.SUCCESS ∧ k (emit b c ev).2 = some (code, c')) ∨
    (code = (emit b c ev).1 ∧ c' = (emit b c ev).2 ∧ code ≠ ErrorCode.SUCCESS) := by
  simp only [tryEmit] at h
  split at h
  · next hok => exact Or.inl ⟨hok, h⟩
  · next hne =>
    rw [Option.some.injEq, Prod.ext_iff] at h
    exact Or.inr ⟨h.1.symm, h.2.symm, fun hc => hne (h.1 ▸ hc)⟩

/-- If `finish` returns `SUCCESS` then the depth it checked was 0, it wrote
the cursor into `next_structural_index`, and in non-streaming mode the cursor
equals `n_structural_indexes`. -/
lemma finish_success_inv {streaming : Bool} {c : Ctx} {c' : Ctx}
    (h : finish streaming c = (ErrorCode.SUCCESS, c')) :
    c'.depth = 0 ∧ c'.dp.next_structural_index = c'.cursor ∧
      (streaming = false → c'.cursor = c'.dp.n_structural_indexes) := by
  simp only [finish] at h
  split at h
  · simp at h
  · split at h
    · simp at h
    · next h1 h2 =>
      rw [Prod.mk.injEq] at h
      obtain ⟨-, h⟩ := h
      subst h
      refine ⟨not_not.mp h1, rfl, ?_⟩
      intro hs
      by_contra hne
      exact h2 ⟨hs, hne⟩

/-- If the `document_end` block returns `SUCCESS`, `finish` did, so its
checks passed. -/
lemma docEnd_success_inv {streaming : Bool} {b : Builder} {c : Ctx} {c' : Ctx}
    (h : docEnd streaming b c = (ErrorCode.SUCCESS, c')) :
    c'.depth = 0 ∧ c'.dp.next_structural_index = c'.cursor ∧
      (streaming = false → c'.cursor = c'.dp.n_structural_indexes) := by
  simp only [docEnd] at h
  split at h
  · exact finish_success_inv h
  · next hne => exact absurd (Prod.ext_iff.mp h).1 hne

/-! ### C1: `SUCCESS` implies depth 0 and a fully consumed index array -/

/-- Any `SUCCESS` exit of the state machine went through `finish`, so the
final depth is 0, `next_structural_index` holds the final cursor, and in
non-streaming mode the cursor equals `n_structural_indexes`. -/
lemma run_success_inv (streaming : Bool) (b : Builder) :
    ∀ (fuel : Nat) (st : PState) (c : Ctx) (c' : Ctx),
      run streaming b fuel st c = some (ErrorCode.SUCCESS, c') →
      c'.depth = 0 ∧ c'.dp.next_structural_index = c'.cursor ∧
        (streaming = false → c'.cursor = c'.dp.n_structural_indexes) := by
  intro fuel
  induction fuel with
  | zero => intro st c c' h; simp [run] at h
  | succ n ih =>
    intro st c c' h
    cases st <;> simp only [run] at h
    case generic_object_begin =>
      split at h
      · rcases tryEmit_some h with ⟨_, h⟩ | ⟨hc, _, hne⟩
        · exact ih _ _ _ h
        · exact absurd rfl (hc ▸ hne)
      · split at h
        · rcases tryEmit_some h with ⟨_, h⟩ | ⟨hc, _, hne⟩
          · exact ih _ _ _ h
          · exact absurd rfl (hc ▸ hne)
        · simp at h
    case object_colon key =>
      split at h
      · exact ih _ _ _ h
      · simp at h
    case object_value key =>
      split at h
      · split at h
        · rcases tryEmit_some h with ⟨_, h⟩ | ⟨hc, _, hne⟩
          · exact ih _ _ _ h
          · exact absurd rfl (hc ▸ hne)
        · split at h
          · rcases tryEmit_some h with ⟨_, h⟩ | ⟨hc, _, hne⟩
            · exact ih _ _ _ h
            · exact absurd rfl (hc ▸ hne)
          · simp at h
      · split at h
        · split at h
          · rcases tryEmit_some h with ⟨_, h⟩ | ⟨hc, _, hne⟩
            · exact ih _ _ _ h
            · exact absurd rfl (hc ▸ hne)
          · rcases tryEmit_some h with ⟨_, h⟩ | ⟨hc, _, hne⟩
            · exact ih _ _ _ h
            · exact absurd rfl (hc ▸ hne)
        · rcases tryEmit_some h with ⟨_, h⟩ | ⟨hc, _, hne⟩
          · exact ih _ _ _ h
          · exact absurd rfl (hc ▸ hne)
    case object_next =>
      split at h
      · split at h
        · exact ih _ _ _ h
        · simp at h
      · split at h
        · rcases tryEmit_some h with ⟨_, h⟩ | ⟨hc, _, hne⟩
          · exact ih _ _ _ h
          · exact absurd rfl (hc ▸ hne)
        · simp at h
    case generic_array_begin =>
      split at h
      · rcases tryEmit_some h with ⟨_, h⟩ | ⟨hc, _, hne⟩
        · exact ih _ _ _ h
        · exact absurd rfl (hc ▸ hne)
      · rcases tryEmit_some h with ⟨_, h⟩ | ⟨hc, _, hne⟩
        · exact ih _ _ _ h
        · exact absurd rfl (hc ▸ hne)
    case array_value voff =>
      split at h
      · split at h
        · rcases tryEmit_some h with ⟨_, h⟩ | ⟨hc, _, hne⟩
          · exact ih _ _ _ h
          · exact absurd rfl (hc ▸ hne)
        · split at h
          · rcases tryEmit_some h with ⟨_, h⟩ | ⟨hc, _, hne⟩
            · exact ih _ _ _ h
            · exact absurd rfl (hc ▸ hne)
          · simp at h
      · split at h
        · split at h
          · rcases tryEmit_some h with ⟨_, h⟩ | ⟨hc, _, hne⟩
            · exact ih _ _ _ h
            · exact absurd rfl (hc ▸ hne)
          · rcases tryEmit_some h with ⟨_, h⟩ | ⟨hc, _, hne⟩
            · exact ih _ _ _ h
            · exact absurd rfl (hc ▸ hne)
        · rcases tryEmit_some h with ⟨_, h⟩ | ⟨hc, _, hne⟩
          · exact ih _ _ _ h
          · exact absurd rfl (hc ▸ hne)
    case array_next =>
      split at h
      · exact ih _ _ _ h
      · split at h
        · rcases tryEmit_some h with ⟨_, h⟩ | ⟨hc, _, hne⟩
          · exact ih _ _ _ h
          · exact absurd rfl (hc ▸ hne)
        · simp at h
    case generic_next =>
      split at h
      · split at h
        · split at h
          · rcases tryEmit_some h with ⟨_, h⟩ | ⟨hc, _, hne⟩
            · exact ih _ _ _ h
            · exact absurd rfl (hc ▸ hne)
          · split at h
            · rcases tryEmit_some h with ⟨_, h⟩ | ⟨hc, _, hne⟩
              · exact ih _ _ _ h
              · exact absurd rfl (hc ▸ hne)
            · split at h
              · rcases tryEmit_some h with ⟨_, h⟩ | ⟨hc, _, hne⟩
                · rcases tryEmit_some h with ⟨_, h⟩ | ⟨hc, _, hne⟩
                  · exact ih _ _ _ h
                  · exact absurd rfl (hc ▸ hne)
                · exact absurd rfl (hc ▸ hne)
              · simp at h
        · split at h
          · rcases tryEmit_some h with ⟨_, h⟩ | ⟨hc, _, hne⟩
            · exact ih _ _ _ h
            · exact absurd rfl (hc ▸ hne)
          · split at h
            · rcases tryEmit_some h with ⟨_, h⟩ | ⟨hc, _, hne⟩
              · exact ih _ _ _ h
              · exact absurd rfl (hc ▸ hne)
            · rcases tryEmit_some h with ⟨_, h⟩ | ⟨hc, _, hne⟩
              · exact ih _ _ _ h
              · exact absurd rfl (hc ▸ hne)
      · split at h
        · rcases tryEmit_some h with ⟨_, h⟩ | ⟨hc, _, hne⟩
          · exact ih _ _ _ h
          · exact absurd rfl (hc ▸ hne)
        · split at h
          · rcases tryEmit_some h with ⟨_, h⟩ | ⟨hc, _, hne⟩
            · exact ih _ _ _ h
            · exact absurd rfl (hc ▸ hne)
          · rw [Option.some.injEq] at h
            exact docEnd_success_inv h

/-- C1: for every builder and every input, if `structural_parser::parse`
returns `SUCCESS` in non-streaming mode, then the depth checked at the
`end_document` event is 0 and `dom_parser.next_structural_index` equals
`dom_parser.n_structural_indexes`. -/
theorem c1_success_depth_zero_and_all_consumed :
    ∀ (b : Builder) (fuel : Nat) (dp : DomParser) (c' : Ctx),
      parse false b fuel dp = some (ErrorCode.SUCCESS, c') →
      c'.depth = 0 ∧
      c'.dp.next_structural_index = c'.dp.n_structural_indexes := by
  intro b fuel dp c' h
  simp only [parse] at h
  split at h
  · simp at h
  · rcases tryEmit_some h with ⟨_, h⟩ | ⟨hc, _, hne⟩
    · split at h
      · obtain ⟨h1, h2, h3⟩ := run_success_inv false b fuel _ _ _ h
        exact ⟨h1, by rw [h2, h3 rfl]⟩
      · split at h
        · split at h
          · simp at h
          · obtain ⟨h1, h2, h3⟩ := run_success_inv false b fuel _ _ _ h
            exact ⟨h1, by rw [h2, h3 rfl]⟩
        · rcases tryEmit_some h with ⟨_, h⟩ | ⟨hc, _, hne⟩
          · rw [Option.some.injEq] at h
            obtain ⟨h1, h2, h3⟩ := docEnd_success_inv h
            exact ⟨h1, by rw [h2, h3 rfl]⟩
          · exact absurd rfl (hc ▸ hne)
    · exact absurd rfl (hc ▸ hne)

/-- The final context of the non-streaming parse of the single-token input
`1`, used by the C1 witness. -/
def ctxOne : Ctx :=
  { dp := { buf := [49], structural_indexes := [0], next_structural_index := 1 },
    cursor := 1, depth := 0,
    trace := [Event.start_document, Event.root_primitive 0, Event.end_document],
    ops := [1] }

/-- Witness for C1: the non-streaming parse of the single-token input `1`
returns `SUCCESS`, and the conclusion holds there. -/
theorem c1_witness :
    parse false noopBuilder 5
        { buf := [49], structural_indexes := [0], next_structural_index := 0 } =
      some (ErrorCode.SUCCESS, ctxOne) ∧
    (ctxOne.depth = 0 ∧
     ctxOne.dp.next_structural_index = ctxOne.dp.n_structural_indexes) :=
  ⟨rfl, c1_success_depth_zero_and_all_consumed noopBuilder 5
    { buf := [49], structural_indexes := [0], next_structural_index := 0 } ctxOne rfl⟩

/-! ### C9: the driver never writes `depth` -/

/-- `finish` never changes the `depth` field. -/
lemma finish_depth (streaming : Bool) (c : Ctx) : (finish streaming c).2.depth = c.depth := by
  simp only [finish]
  split
  · rfl
  · split <;> rfl

/-- With a builder whose callbacks do not mutate `depth`, the
`document_end` block leaves `depth` unchanged. -/
lemma docEnd_depth {b : Builder} (hb : ∀ t ev d, b.onDepth t ev d = d)
    (streaming : Bool) (c : Ctx) : (docEnd streaming b c).2.depth = c.depth := by
  simp only [docEnd]
  split
  · rw [finish_depth]; simp [emit, hb]
  · simp [emit, hb]

/-- Pair-equation form of `docEnd_depth`. -/
lemma docEnd_snd_depth {b : Builder} (hb : ∀ t ev d, b.onDepth t ev d = d)
    {streaming : Bool} {c : Ctx} {code : ErrorCode} {c' : Ctx}
    (h : docEnd streaming b c = (code, c')) : c'.depth = c.depth := by
  have hd := docEnd_depth hb streaming c
  rw [h] at hd
  exact hd

/-- With a builder whose callbacks do not mutate `depth`, the state machine
leaves `depth` unchanged: the driver itself never writes the field. -/
lemma run_depth_inv (streaming : Bool) (b : Builder)
    (hb : ∀ t ev d, b.onDepth t ev d = d) :
    ∀ (fuel : Nat) (st : PState) (c : Ctx) (code : ErrorCode) (c' : Ctx),
      run streaming b fuel st c = some (code, c') → c'.depth = c.depth := by
  intro fuel
  induction fuel with
  | zero => intro st c code c' h; simp [run] at h
  | succ n ih =>
    intro st c code c' h
    cases st <;> simp only [run] at h <;>
      repeat'
        first
        | exact (ih _ _ _ _ h).trans (by simp [emit, hb, Ctx.adv, Ctx.back_up])
        | (rw [Option.some.injEq, Prod.mk.injEq] at h
           obtain ⟨-, rfl⟩ := h
           first
           | rfl
           | (rw [docEnd_depth hb]; simp [Ctx.adv, Ctx.back_up])
           | (simp [emit, hb, Ctx.adv, Ctx.back_up]; done))
        | (replace h := Option.some_inj.mp h
           exact (docEnd_snd_depth hb h).trans
             (by simp [emit, hb, Ctx.adv, Ctx.back_up]))
        | (rw [docEnd_depth hb]; simp [emit, hb, Ctx.adv, Ctx.back_up]; done)
        | (rcases tryEmit_some h with ⟨-, h⟩ | ⟨-, rfl, -⟩)
        | (simp [emit, hb, Ctx.adv, Ctx.back_up]; done)
        | split at h

/-- C9: the parse driver itself never writes the `depth` field.  Part 1:
`depth` starts at 0 and, with any builder whose callbacks do not mutate it,
it is still 0 whatever `parse` returns.  Part 2: consequently the
finish-time check `depth != 0` can never fire — at depth 0, a `TAPE_ERROR`
from `finish` can only come from the non-streaming residual-token check —
so unclosed containers are detected only if the builder maintains `depth`. -/
theorem c9_driver_never_writes_depth :
    (∀ (b : Builder) (streaming : Bool) (fuel : Nat) (dp : DomParser)
        (code : ErrorCode) (c' : Ctx),
        (∀ t ev d, b.onDepth t ev d = d) →
        parse streaming b fuel dp = some (code, c') → c'.depth = 0) ∧
    (∀ (streaming : Bool) (c : Ctx), c.depth = 0 →
        (finish streaming c).1 = ErrorCode.TAPE_ERROR →
        streaming = false ∧ c.cursor ≠ c.dp.n_structural_indexes) := by
  constructor
  · intro b streaming fuel dp code c' hb h
    simp only [parse] at h
    repeat'
      first
      | exact (run_depth_inv streaming b hb _ _ _ _ _ h).trans
          (by simp [emit, hb, Ctx.adv, Ctx.back_up, initCtx])
      | (rw [Option.some.injEq, Prod.mk.injEq] at h
         obtain ⟨-, rfl⟩ := h
         first
         | simp [initCtx]
         | (rw [docEnd_depth hb]
            simp [emit, hb, Ctx.adv, Ctx.back_up, initCtx])
         | (simp [emit, hb, Ctx.adv, Ctx.back_up, initCtx]; done))
      | (replace h := Option.some_inj.mp h
         exact (docEnd_snd_depth hb h).trans
           (by simp [emit, hb, Ctx.adv, Ctx.back_up, initCtx]))
      | (rw [docEnd_depth hb]; simp [emit, hb, Ctx.adv, Ctx.back_up, initCtx]; done)
      | (rcases tryEmit_some h with ⟨-, h⟩ | ⟨-, rfl, -⟩)
      | (simp [emit, hb, Ctx.adv, Ctx.back_up, initCtx]; done)
      | split at h
  · intro streaming c hd h
    simp only [finish] at h
    split at h
    · next h1 => exact absurd (by simp [hd]) h1
    · split at h
      · next h2 => exact h2
      · simp at h

/-- Witness for C9: with the noop builder (which never mutates `depth`), the
streaming parse of `[1` ends with depth 0; and at a context of depth 0 whose
cursor is short of the index count, `finish` in non-streaming mode returns
`TAPE_ERROR` only because of the residual-token check. -/
theorem c9_witness :
    parse true noopBuilder 10
        { buf := [91, 49], structural_indexes := [0, 1], next_structural_index := 0 } =
      some (ErrorCode.TAPE_ERROR,
        { dp := { buf := [91, 49], structural_indexes := [0, 1], next_structural_index := 0 },
          cursor := 3, depth := 0,
          trace := [Event.start_document, Event.start_array, Event.primitive 1],
          ops := [1, 2, 3] }) ∧
    ({ dp := { buf := [91, 49], structural_indexes := [0, 1], next_structural_index := 0 },
       cursor := 3, depth := 0,
       trace := [Event.start_document, Event.start_array, Event.primitive 1],
       ops := [1, 2, 3] } : Ctx).depth = 0 ∧
    (false = false ∧ (1 : Nat) ≠ 2) :=
  ⟨rfl,
   (c9_driver_never_writes_depth).1 noopBuilder true 10
     { buf := [91, 49], structural_indexes := [0, 1], next_structural_index := 0 }
     ErrorCode.TAPE_ERROR _ (fun _ _ _ => rfl) rfl,
   (c9_driver_never_writes_depth).2 false
     { dp := { buf := [91, 49], structural_indexes := [0, 1], next_structural_index := 0 },
       cursor := 1, depth := 0, trace := [], ops := [] } rfl (by decide)⟩

/-! ### C4: the non-streaming top-level-array pre-check -/

/-- `finish` never changes the trace. -/
lemma finish_trace (streaming : Bool) (c : Ctx) : (finish streaming c).2.trace = c.trace := by
  simp only [finish]
  split
  · rfl
  · split <;> rfl

/-- The `document_end` block appends exactly the `end_document` event. -/
lemma docEnd_trace (streaming : Bool) (b : Builder) (c : Ctx) :
    (docEnd streaming b c).2.trace = c.trace ++ [Event.end_document] := by
  simp only [docEnd]
  split
  · rw [finish_trace]; simp [emit]
  · simp [emit]

/-- Pair-equation form of `docEnd_trace`. -/
lemma docEnd_snd_trace {streaming : Bool} {b : Builder} {c : Ctx} {code : ErrorCode} {c' : Ctx}
    (h : docEnd streaming b c = (code, c')) :
    c'.trace = c.trace ++ [Event.end_document] := by
  have hd := docEnd_trace streaming b c
  rw [h] at hd
  exact hd

/-- The state machine only appends to the event trace. -/
lemma run_trace_mono (streaming : Bool) (b : Builder) :
    ∀ (fuel : Nat) (st : PState) (c : Ctx) (code : ErrorCode) (c' : Ctx),
      run streaming b fuel st c = some (code, c') →
      c.trace.length ≤ c'.trace.length := by
  intro fuel
  induction fuel with
  | zero => intro st c code c' h; simp [run] at h
  | succ n ih =>
    intro st c code c' h
    cases st <;> simp only [run] at h <;>
      repeat'
        first
        | exact le_trans (by simp [emit, Ctx.adv, Ctx.back_up]) (ih _ _ _ _ h)
        | (rw [Option.some.injEq, Prod.mk.injEq] at h
           obtain ⟨-, rfl⟩ := h
           first
           | (rw [docEnd_trace]; simp [emit, Ctx.adv, Ctx.back_up]; try omega; done)
           | (simp [emit, Ctx.adv, Ctx.back_up]; done)
           | (simp [emit, Ctx.adv, Ctx.back_up]; omega))
        | (replace h := Option.some_inj.mp h
           rw [docEnd_snd_trace h]
           simp [emit, Ctx.adv, Ctx.back_up])
        | (rcases tryEmit_some h with ⟨-, h⟩ | ⟨-, rfl, -⟩)
        | (simp [emit, Ctx.adv, Ctx.back_up]; done)
        | split at h

/-- C4: in non-streaming mode, for an input whose first structural byte is
`[` and whose final structural byte is not `]` (and whose builder accepts
`start_document`), `parse` returns `TAPE_ERROR` with only `start_document`
emitted — no container event reaches the builder.  In streaming mode the
pre-check is skipped: the same parse goes on to emit a second event (the
`generic_array_begin` dispatch), so any returned result carries at least two
events. -/
theorem c4_toplevel_array_precheck :
    ∀ (b : Builder) (dp : DomParser) (fuel : Nat),
      dp.tok 0 = LBRACK →
      dp.tok (dp.n_structural_indexes - 1) ≠ RBRACK →
      0 < dp.n_structural_indexes →
      b.onEvent [] Event.start_document = ErrorCode.SUCCESS →
      (∃ c', parse false b fuel dp = some (ErrorCode.TAPE_ERROR, c') ∧
         c'.trace = [Event.start_document]) ∧
      (dp.next_structural_index = 0 →
        ∀ code c', parse true b fuel dp = some (code, c') → 2 ≤ c'.trace.length) := by
  intro b dp fuel h0 hlast hn hsd
  have hend : ∀ s, (initCtx s dp).cursor = 0 → (initCtx s dp).at_end ≠ true := by
    intro s hc hbad
    simp only [Ctx.at_end] at hbad
    rw [hc, Nat.beq_eq_true_eq] at hbad
    simp only [initCtx] at hbad
    omega
  constructor
  · refine ⟨(emit b (initCtx false dp) Event.start_document).2.adv, ?_, ?_⟩
    · simp only [parse]
      rw [if_neg (hend false rfl)]
      rw [tryEmit]
      rw [if_pos (by simpa [emit, initCtx] using hsd)]
      have hoff : (emit b (initCtx false dp) Event.start_document).2.curOff = dp.idxAt 0 := by
        simp [emit, initCtx, Ctx.curOff]
      have hb1 : (emit b (initCtx false dp) Event.start_document).2.adv.dp.byteAt
          ((emit b (initCtx false dp) Event.start_document).2.curOff) = dp.tok 0 := by
        simp [emit, initCtx, Ctx.curOff, Ctx.adv, DomParser.tok]
      rw [if_neg (by rw [hb1, h0]; decide)]
      rw [if_pos (by rw [hb1, h0])]
      rw [if_pos (show _ ∧ _ from
        ⟨by trivial, by simpa [emit, initCtx, Ctx.adv] using hlast⟩)]
    · simp [emit, initCtx, Ctx.adv]
  · intro hnsi code c' hp
    simp only [parse] at hp
    rw [if_neg (hend true (by simp [initCtx, hnsi]))] at hp
    rw [tryEmit] at hp
    rw [if_pos (by simpa [emit, initCtx] using hsd)] at hp
    have hb1 : (emit b (initCtx true dp) Event.start_document).2.adv.dp.byteAt
        ((emit b (initCtx true dp) Event.start_document).2.curOff) = dp.tok 0 := by
      simp [emit, initCtx, Ctx.curOff, Ctx.adv, DomParser.tok, hnsi]
    rw [if_neg (by rw [hb1, h0]; decide)] at hp
    rw [if_pos (by rw [hb1, h0])] at hp
    rw [if_neg (by simp)] at hp
    have htr : (emit b (initCtx true dp) Event.start_document).2.adv.trace.length = 1 := by
      simp [emit, initCtx, Ctx.adv]
    cases fuel with
    | zero => simp [run] at hp
    | succ n =>
      simp only [run] at hp
      split at hp
      · rcases tryEmit_some hp with ⟨-, hp⟩ | ⟨-, rfl, -⟩
        · refine le_trans ?_ (run_trace_mono true b _ _ _ _ _ hp)
          simp [emit, Ctx.adv, htr]
        · simp [emit, Ctx.adv, htr]
      · rcases tryEmit_some hp with ⟨-, hp⟩ | ⟨-, rfl, -⟩
        · refine le_trans ?_ (run_trace_mono true b _ _ _ _ _ hp)
          simp [emit, Ctx.adv, htr]
        · simp [emit, Ctx.adv, htr]

/-- Witness for C4: the input `[1` (first structural byte `[`, last
structural byte `1`). -/
theorem c4_witness :
    ({ buf := [91, 49], structural_indexes := [0, 1],
       next_structural_index := 0 } : DomParser).tok 0 = LBRACK ∧
    ({ buf := [91, 49], structural_indexes := [0, 1],
       next_structural_index := 0 } : DomParser).tok 1 ≠ RBRACK ∧
    ((∃ c', parse false noopBuilder 20
        { buf := [91, 49], structural_indexes := [0, 1], next_structural_index := 0 } =
          some (ErrorCode.TAPE_ERROR, c') ∧ c'.trace = [Event.start_document]) ∧
     (({ buf := [91, 49], structural_indexes := [0, 1],
          next_structural_index := 0 } : DomParser).next_structural_index = 0 →
       ∀ code c', parse true noopBuilder 20
          { buf := [91, 49], structural_indexes := [0, 1], next_structural_index := 0 } =
            some (code, c') → 2 ≤ c'.trace.length)) :=
  ⟨by decide, by decide,
   c4_toplevel_array_precheck noopBuilder
     { buf := [91, 49], structural_indexes := [0, 1], next_structural_index := 0 } 20
     (by decide) (by decide) (by decide) rfl⟩

/-! ### C7: builder errors short-circuit and propagate unchanged -/

/-- Every event of a trace was answered `SUCCESS` by the builder (given the
events before it as the builder's state). -/
def AllOk (b : Builder) (t : List Event) : Prop :=
  ∀ i, (hi : i < t.length) → b.onEvent (t.take i) (t.get ⟨i, hi⟩) = ErrorCode.SUCCESS

/-- The empty trace is all-ok. -/
lemma AllOk_nil (b : Builder) : AllOk b [] := by
  intro i hi
  simp at hi

/-- Appending an event the builder accepted preserves `AllOk`. -/
lemma AllOk_snoc {b : Builder} {t : List Event} {ev : Event} (hA : AllOk b t)
    (hev : b.onEvent t ev = ErrorCode.SUCCESS) : AllOk b (t ++ [ev]) := by
  intro i hi
  rcases Nat.lt_or_ge i t.length with hit | hge
  · rw [List.take_append_of_le_length (le_of_lt hit)]
    have hg : (t ++ [ev]).get ⟨i, hi⟩ = t.get ⟨i, hit⟩ := by
      simp [List.get_eq_getElem, List.getElem_append_left hit]
    rw [hg]
    exact hA i hit
  · have hieq : i = t.length := by
      simp only [List.length_append, List.length_cons, List.length_nil] at hi
      omega
    subst hieq
    rw [List.take_left]
    have hg : (t ++ [ev]).get ⟨t.length, hi⟩ = ev := by
      simp [List.get_eq_getElem]
    rw [hg]
    exact hev

/-- A successful `emit` preserves `AllOk` of the context trace. -/
lemma AllOk_emit {b : Builder} {c : Ctx} {ev : Event} (hA : AllOk b c.trace)
    (hok : (emit b c ev).1 = ErrorCode.SUCCESS) : AllOk b (emit b c ev).2.trace := by
  have hev : b.onEvent c.trace ev = ErrorCode.SUCCESS := by simpa [emit] using hok
  simpa [emit] using AllOk_snoc hA hev

/-- The failing-emit exit shape of the state machine. -/
lemma emit_fail_case {b : Builder} {c : Ctx} {ev : Event} {code : ErrorCode}
    (hA : AllOk b c.trace) (hc : code = (emit b c ev).1)
    (hne : code ≠ ErrorCode.SUCCESS) :
    ∃ t e, (emit b c ev).2.trace = t ++ [e] ∧ AllOk b t ∧
      code = b.onEvent t e ∧ code ≠ ErrorCode.SUCCESS :=
  ⟨c.trace, ev, by simp [emit], hA, by simpa [emit] using hc, hne⟩

/-- The `document_end` block respects the `AllOk` disjunction. -/
lemma docEnd_allok {streaming : Bool} {b : Builder} {c : Ctx} {code : ErrorCode} {c' : Ctx}
    (h : docEnd streaming b c = (code, c')) (hA : AllOk b c.trace) :
    AllOk b c'.trace ∨ ∃ t e, c'.trace = t ++ [e] ∧ AllOk b t ∧
      code = b.onEvent t e ∧ code ≠ ErrorCode.SUCCESS := by
  have htr := docEnd_snd_trace h
  simp only [docEnd] at h
  split at h
  · next hok =>
    refine Or.inl ?_
    rw [htr]
    exact AllOk_snoc hA (by simpa [emit] using hok)
  · next hne =>
    have h1 : (emit b c Event.end_document).1 = code := congrArg Prod.fst h
    refine Or.inr ⟨c.trace, Event.end_document, htr, hA, ?_, ?_⟩
    · rw [← h1]; simp [emit]
    · rw [← h1]; simpa [emit] using hne

/-- Master lemma for C7: any result of the state machine, started from an
all-ok trace, either has an all-ok trace (no callback failed), or its trace
ends with exactly the one failing event, whose error code is returned
unchanged. -/
lemma run_allok (streaming : Bool) (b : Builder) :
    ∀ (fuel : Nat) (st : PState) (c : Ctx) (code : ErrorCode) (c' : Ctx),
      run streaming b fuel st c = some (code, c') → AllOk b c.trace →
      AllOk b c'.trace ∨ ∃ t e, c'.trace = t ++ [e] ∧ AllOk b t ∧
        code = b.onEvent t e ∧ code ≠ ErrorCode.SUCCESS := by
  intro fuel
  induction fuel with
  | zero => intro st c code c' h hA; simp [run] at h
  | succ n ih =>
    intro st c code c' h hA
    cases st <;> simp only [run] at h <;>
      repeat'
        first
        | exact ih _ _ _ _ h hA
        | (rw [Option.some.injEq, Prod.mk.injEq] at h
           obtain ⟨-, rfl⟩ := h
           exact Or.inl hA)
        | (replace h := Option.some_inj.mp h
           exact docEnd_allok h hA)
        | (rcases tryEmit_some h with ⟨hok, h⟩ | ⟨hc, rfl, hne⟩
           all_goals try (exact Or.inr (emit_fail_case hA hc hne))
           all_goals replace hA := AllOk_emit hA hok)
        | split at h

/-- `parse`-level version of `run_allok`. -/
lemma parse_allok (streaming : Bool) (b : Builder) (fuel : Nat) (dp : DomParser)
    (code : ErrorCode) (c' : Ctx) (h : parse streaming b fuel dp = some (code, c')) :
    AllOk b c'.trace ∨ ∃ t e, c'.trace = t ++ [e] ∧ AllOk b t ∧
      code = b.onEvent t e ∧ code ≠ ErrorCode.SUCCESS := by
  have hA : AllOk b (initCtx streaming dp).trace := AllOk_nil b
  simp only [parse] at h
  repeat'
    first
    | exact run_allok streaming b _ _ _ _ _ h hA
    | (rw [Option.some.injEq, Prod.mk.injEq] at h
       obtain ⟨-, rfl⟩ := h
       exact Or.inl hA)
    | (replace h := Option.some_inj.mp h
       exact docEnd_allok h hA)
    | (rcases tryEmit_some h with ⟨hok, h⟩ | ⟨hc, rfl, hne⟩
       all_goals try (exact Or.inr (emit_fail_case hA hc hne))
       all_goals replace hA := AllOk_emit hA hok)
    | split at h

/-- C7: for every builder callback invoked by `structural_parser::parse`, if
the callback returns a non-`SUCCESS` code, the driver emits no further event
(the failing event is the last of the trace) and `parse` returns exactly
that code, unchanged. -/
theorem c7_builder_error_short_circuits :
    ∀ (streaming : Bool) (b : Builder) (fuel : Nat) (dp : DomParser)
      (code : ErrorCode) (c' : Ctx),
      parse streaming b fuel dp = some (code, c') →
      ∀ i, (hi : i < c'.trace.length) →
        b.onEvent (c'.trace.take i) (c'.trace.get ⟨i, hi⟩) ≠ ErrorCode.SUCCESS →
        i + 1 = c'.trace.length ∧
        code = b.onEvent (c'.trace.take i) (c'.trace.get ⟨i, hi⟩) := by
  intro streaming b fuel dp code c' h i hi hne
  rcases parse_allok streaming b fuel dp code c' h with hA | ⟨t, e, htr, hA, hcode, -⟩
  · exact absurd (hA i hi) hne
  · have hlen : c'.trace.length = t.length + 1 := by rw [htr]; simp
    have hget := List.get_of_eq htr ⟨i, hi⟩
    rcases Nat.lt_or_ge i t.length with hit | hge
    · exfalso
      have h1 : c'.trace.take i = t.take i := by
        rw [htr]; exact List.take_append_of_le_length (le_of_lt hit)
      have h2 : c'.trace.get ⟨i, hi⟩ = t.get ⟨i, hit⟩ := by
        rw [hget]; simp [List.get_eq_getElem, List.getElem_append_left hit]
      rw [h1, h2] at hne
      exact hne (hA i hit)
    · have hieq : i = t.length := by omega
      subst hieq
      have h1 : c'.trace.take t.length = t := by rw [htr]; exact List.take_left t [e]
      have h2 : c'.trace.get ⟨t.length, hi⟩ = e := by
        rw [hget]; simp [List.get_eq_getElem]
      rw [h1, h2]
      exact ⟨by omega, hcode⟩

/-- A builder that rejects `primitive` events with `NUMBER_ERROR` (as the
tape builder does on malformed numbers) and accepts everything else. -/
def numFailBuilder : Builder where
  onEvent := fun _ ev =>
    match ev with
    | Event.primitive _ => ErrorCode.NUMBER_ERROR
    | _ => ErrorCode.SUCCESS
  onDepth := fun _ _ d => d

/-- Witness for C7: parsing `[1,2]` with a builder that fails on `primitive`
returns `NUMBER_ERROR`; the failing `primitive` event (index 2) is last in
the trace and the code is the builder's, unchanged. -/
theorem c7_witness :
    parse false numFailBuilder 20
        { buf := [91, 49, 44, 50, 93], structural_indexes := [0, 1, 2, 3, 4],
          next_structural_index := 0 } =
      some (ErrorCode.NUMBER_ERROR,
        { dp := { buf := [91, 49, 44, 50, 93], structural_indexes := [0, 1, 2, 3, 4],
                  next_structural_index := 0 },
          cursor := 2, depth := 0,
          trace := [Event.start_document, Event.start_array, Event.primitive 1],
          ops := [1, 2] }) ∧
    (2 : Nat) < 3 ∧
    numFailBuilder.onEvent
        [Event.start_document, Event.start_array] (Event.primitive 1) ≠
      ErrorCode.SUCCESS ∧
    (2 + 1 = ([Event.start_document, Event.start_array,
        Event.primitive 1] : List Event).length ∧
      ErrorCode.NUMBER_ERROR = numFailBuilder.onEvent
        [Event.start_document, Event.start_array] (Event.primitive 1)) :=
  ⟨rfl, by decide, by decide,
   c7_builder_error_short_circuits false numFailBuilder 20
     { buf := [91, 49, 44, 50, 93], structural_indexes := [0, 1, 2, 3, 4],
       next_structural_index := 0 }
     ErrorCode.NUMBER_ERROR _ rfl 2 (by decide) (by decide)⟩

/-! ### C6: the cursor is monotone except one final one-step back-up -/

/-- A list of cursor snapshots in which each entry is the previous plus one
(the shape produced by `advance` alone). -/
def AdjUp : List Nat → Prop
  | [] => True
  | [_] => True
  | p :: q :: rest => q = p + 1 ∧ AdjUp (q :: rest)

/-- The cursor-ops invariant of a live context: the recorded snapshots form
an ascending chain whose last entry (if any) is the current cursor. -/
def OpsInv (c : Ctx) : Prop :=
  AdjUp c.ops ∧ (c.ops = [] ∨ c.ops.getLast? = some c.cursor)

/-- First component of `OpsInv`. -/
lemma OpsInv_fst {c : Ctx} (h : OpsInv c) : AdjUp c.ops := h.1

/-- Appending the successor of the last entry preserves `AdjUp`. -/
lemma AdjUp_snoc : ∀ (l : List Nat) (x : Nat), AdjUp l →
    (l = [] ∨ l.getLast? = some x) → AdjUp (l ++ [x + 1]) := by
  intro l
  induction l with
  | nil => intro x _ _; simp [AdjUp]
  | cons a tl ih =>
    intro x hA hL
    cases tl with
    | nil =>
      have hax : a = x := by
        rcases hL with hL | hL
        · simp at hL
        · simpa using hL
      subst hax
      simp [AdjUp]
    | cons b rest =>
      rw [AdjUp] at hA
      have hL' : b :: rest = [] ∨ (b :: rest).getLast? = some x := by
        rcases hL with hL | hL
        · simp at hL
        · right; rw [← hL]; simp [List.getLast?_cons_cons]
      have := ih x hA.2 hL'
      simp only [List.cons_append]
      rw [show (b :: rest) ++ [x + 1] = b :: (rest ++ [x + 1]) from by simp] at this
      exact ⟨hA.1, by simpa using this⟩

/-- `advance` preserves the cursor-ops invariant. -/
lemma OpsInv_adv {c : Ctx} (h : OpsInv c) : OpsInv c.adv := by
  refine ⟨AdjUp_snoc c.ops c.cursor h.1 h.2, Or.inr ?_⟩
  simp [Ctx.adv]

/-- `emit` does not touch the cursor or the ops list. -/
lemma OpsInv_emit {b : Builder} {c : Ctx} {ev : Event} (h : OpsInv c) :
    OpsInv (emit b c ev).2 := h

/-- `finish` does not touch the ops list. -/
lemma finish_ops (streaming : Bool) (c : Ctx) : (finish streaming c).2.ops = c.ops := by
  simp only [finish]
  split
  · rfl
  · split <;> rfl

/-- The `document_end` block does not touch the ops list. -/
lemma docEnd_ops (streaming : Bool) (b : Builder) (c : Ctx) :
    (docEnd streaming b c).2.ops = c.ops := by
  simp only [docEnd]
  split
  · rw [finish_ops]; simp [emit]
  · simp [emit]

/-- Pair-equation form of `docEnd_ops`. -/
lemma docEnd_snd_ops {streaming : Bool} {b : Builder} {c : Ctx} {code : ErrorCode} {c' : Ctx}
    (h : docEnd streaming b c = (code, c')) : c'.ops = c.ops := by
  have hd := docEnd_ops streaming b c
  rw [h] at hd
  exact hd

/-- `finish` does not change the buffer or the structural index array. -/
lemma finish_dp (streaming : Bool) (c : Ctx) :
    (finish streaming c).2.dp.buf = c.dp.buf ∧
    (finish streaming c).2.dp.structural_indexes = c.dp.structural_indexes := by
  constructor <;>
    · simp only [finish]
      split
      · rfl
      · split <;> rfl

/-- The `document_end` block does not change any structural byte. -/
lemma docEnd_snd_tok {streaming : Bool} {b : Builder} {c : Ctx} {code : ErrorCode} {c' : Ctx}
    (h : docEnd streaming b c = (code, c')) (i : Nat) : c'.dp.tok i = c.dp.tok i := by
  have hb : c'.dp.buf = c.dp.buf := by
    have hd := (finish_dp streaming (emit b c Event.end_document).2).1
    simp only [docEnd] at h
    split at h
    · rw [h] at hd; simpa [emit] using hd
    · have h2 : (emit b c Event.end_document).2 = c' := congrArg Prod.snd h
      rw [← h2]; simp [emit]
  have hs : c'.dp.structural_indexes = c.dp.structural_indexes := by
    have hd := (finish_dp streaming (emit b c Event.end_document).2).2
    simp only [docEnd] at h
    split at h
    · rw [h] at hd; simpa [emit] using hd
    · have h2 : (emit b c Event.end_document).2 = c' := congrArg Prod.snd h
      rw [← h2]; simp [emit]
  simp [DomParser.tok, DomParser.byteAt, DomParser.idxAt, hb, hs]

/-- The one-step back-up exit shape: the ops list is an ascending chain
followed by exactly one decrement from `p + 1` to `p`, the trace ends with
`end_document`, and the structural byte read at `p` was not `,`, `]` or
`}`. -/
lemma backup_exit {streaming : Bool} {b : Builder} {c : Ctx} {code : ErrorCode} {c' : Ctx}
    (h : docEnd streaming b c.adv.back_up = (code, c')) (hInv : OpsInv c)
    (h1 : ¬c.curByte = COMMA) (h2 : ¬c.curByte = RBRACK) (h3 : ¬c.curByte = RBRACE) :
    ∃ pre p, c'.ops = pre ++ [p] ∧ AdjUp pre ∧ pre.getLast? = some (p + 1) ∧
      c'.trace.getLast? = some Event.end_document ∧
      ¬c'.dp.tok p = COMMA ∧ ¬c'.dp.tok p = RBRACK ∧ ¬c'.dp.tok p = RBRACE := by
  refine ⟨c.ops ++ [c.cursor + 1], c.cursor, ?_, ?_, ?_, ?_, ?_, ?_, ?_⟩
  · rw [docEnd_snd_ops h]
    simp [Ctx.adv, Ctx.back_up]
  · exact AdjUp_snoc c.ops c.cursor hInv.1 hInv.2
  · simp
  · rw [docEnd_snd_trace h]
    simp
  · rw [docEnd_snd_tok h]
    exact h1
  · rw [docEnd_snd_tok h]
    exact h2
  · rw [docEnd_snd_tok h]
    exact h3

/-- Master lemma for C6: any result of the state machine started with a valid
ops chain either still has an ascending ops chain (every cursor move was an
`advance` by one), or its ops list is an ascending chain followed by exactly
one final one-step back-up taken in the `generic_next` default branch. -/
lemma run_ops (streaming : Bool) (b : Builder) :
    ∀ (fuel : Nat) (st : PState) (c : Ctx) (code : ErrorCode) (c' : Ctx),
      run streaming b fuel st c = some (code, c') → OpsInv c →
      AdjUp c'.ops ∨
      ∃ pre p, c'.ops = pre ++ [p] ∧ AdjUp pre ∧ pre.getLast? = some (p + 1) ∧
        c'.trace.getLast? = some Event.end_document ∧
        ¬c'.dp.tok p = COMMA ∧ ¬c'.dp.tok p = RBRACK ∧ ¬c'.dp.tok p = RBRACE := by
  intro fuel
  induction fuel with
  | zero => intro st c code c' h hInv; simp [run] at h
  | succ n ih =>
    intro st c code c' h hInv
    cases st <;> simp only [run] at h <;>
      repeat'
        first
        | exact ih _ _ _ _ h
            (by first | exact hInv | exact OpsInv_adv hInv | exact OpsInv_adv (OpsInv_adv hInv) | exact OpsInv_adv (OpsInv_adv (OpsInv_adv hInv)))
        | (rw [Option.some.injEq, Prod.mk.injEq] at h
           obtain ⟨-, rfl⟩ := h
           exact Or.inl (OpsInv_fst
             (by first | exact hInv | exact OpsInv_adv hInv | exact OpsInv_adv (OpsInv_adv hInv) | exact OpsInv_adv (OpsInv_adv (OpsInv_adv hInv)))))
        | (replace h := Option.some_inj.mp h
           exact Or.inr (backup_exit h
             (by first | exact hInv | exact OpsInv_adv hInv | exact OpsInv_adv (OpsInv_adv hInv) | exact OpsInv_adv (OpsInv_adv (OpsInv_adv hInv)))
             (by assumption) (by assumption) (by assumption)))
        | (rcases tryEmit_some h with ⟨hok, h⟩ | ⟨hc, rfl, hne⟩
           all_goals try (exact Or.inl (OpsInv_fst
             (by first | exact hInv | exact OpsInv_adv hInv | exact OpsInv_adv (OpsInv_adv hInv) | exact OpsInv_adv (OpsInv_adv (OpsInv_adv hInv))))))
        | split at h

/-- `parse`-level version of `run_ops` (the initial ops list is empty). -/
lemma parse_ops (streaming : Bool) (b : Builder) (fuel : Nat) (dp : DomParser)
    (code : ErrorCode) (c' : Ctx) (h : parse streaming b fuel dp = some (code, c')) :
    AdjUp c'.ops ∨
    ∃ pre p, c'.ops = pre ++ [p] ∧ AdjUp pre ∧ pre.getLast? = some (p + 1) ∧
      c'.trace.getLast? = some Event.end_document ∧
      ¬c'.dp.tok p = COMMA ∧ ¬c'.dp.tok p = RBRACK ∧ ¬c'.dp.tok p = RBRACE := by
  have hInv : OpsInv (initCtx streaming dp) := ⟨trivial, Or.inl rfl⟩
  simp only [parse] at h
  repeat'
    first
    | exact run_ops streaming b _ _ _ _ _ h
        (by first | exact hInv | exact OpsInv_adv hInv | exact OpsInv_adv (OpsInv_adv hInv) | exact OpsInv_adv (OpsInv_adv (OpsInv_adv hInv)))
    | (rw [Option.some.injEq, Prod.mk.injEq] at h
       obtain ⟨-, rfl⟩ := h
       exact Or.inl (OpsInv_fst
         (by first | exact hInv | exact OpsInv_adv hInv | exact OpsInv_adv (OpsInv_adv hInv) | exact OpsInv_adv (OpsInv_adv (OpsInv_adv hInv)))))
    | (replace h := Option.some_inj.mp h
       have ho := docEnd_snd_ops h
       exact Or.inl (ho ▸ OpsInv_fst
         (by first | exact hInv | exact OpsInv_adv hInv | exact OpsInv_adv (OpsInv_adv hInv) | exact OpsInv_adv (OpsInv_adv (OpsInv_adv hInv)))))
    | (rcases tryEmit_some h with ⟨hok, h⟩ | ⟨hc, rfl, hne⟩
       all_goals try (exact Or.inl (OpsInv_fst
         (by first | exact hInv | exact OpsInv_adv hInv | exact OpsInv_adv (OpsInv_adv hInv) | exact OpsInv_adv (OpsInv_adv (OpsInv_adv hInv))))))
    | split at h

/-- In an ascending chain every adjacent pair increases by exactly one. -/
lemma AdjUp_getD : ∀ (l : List Nat), AdjUp l →
    ∀ i, i + 1 < l.length → l.getD (i + 1) 0 = l.getD i 0 + 1 := by
  intro l
  induction l with
  | nil => intro _ i hj; simp at hj
  | cons a tl ih =>
    intro hA i hj
    cases tl with
    | nil => simp at hj
    | cons b rest =>
      rw [AdjUp] at hA
      cases i with
      | zero => simpa using hA.1
      | succ n =>
        have hj2 : n + 1 < (b :: rest).length := by
          simp only [List.length_cons] at hj ⊢
          omega
        simpa using ih hA.2 n hj2

/-- C6: during any single parse call the cursor is monotonically
non-decreasing — each recorded cursor operation is an `advance` by one —
except for at most one one-step decrement; any decrement is the final cursor
operation of the call, decreases the cursor by exactly one, happens only
when the structural byte just read (in the `generic_next` default branch) is
not `,`, `]` or `}`, and the parser then proceeds directly to
`document_end` (the trace ends with `end_document`). -/
theorem c6_cursor_monotone_one_backup :
    ∀ (streaming : Bool) (b : Builder) (fuel : Nat) (dp : DomParser)
      (code : ErrorCode) (c' : Ctx),
      parse streaming b fuel dp = some (code, c') →
      (∀ i, i + 1 < c'.ops.length →
        c'.ops.getD (i + 1) 0 < c'.ops.getD i 0 →
        i + 2 = c'.ops.length ∧
        c'.ops.getD i 0 = c'.ops.getD (i + 1) 0 + 1 ∧
        c'.trace.getLast? = some Event.end_document ∧
        ¬c'.dp.tok (c'.ops.getD (i + 1) 0) = COMMA ∧
        ¬c'.dp.tok (c'.ops.getD (i + 1) 0) = RBRACK ∧
        ¬c'.dp.tok (c'.ops.getD (i + 1) 0) = RBRACE) ∧
      (∀ i, i + 1 < c'.ops.length →
        ¬c'.ops.getD (i + 1) 0 < c'.ops.getD i 0 →
        c'.ops.getD (i + 1) 0 = c'.ops.getD i 0 + 1) := by
  intro streaming b fuel dp code c' h
  rcases parse_ops streaming b fuel dp code c' h with hA |
    ⟨pre, p, hops, hpre, hlast, htr, hc1, hc2, hc3⟩
  · constructor
    · intro i hj hlt
      exfalso
      rw [AdjUp_getD c'.ops hA i hj] at hlt
      omega
    · intro i hj _
      exact AdjUp_getD c'.ops hA i hj
  · have hprelen : 0 < pre.length := by
      cases pre with
      | nil => simp at hlast
      | cons a tl => simp
    have hlen : c'.ops.length = pre.length + 1 := by rw [hops]; simp
    have hgetIn : ∀ i, i < pre.length → c'.ops.getD i 0 = pre.getD i 0 := by
      intro i hi
      rw [hops]
      exact List.getD_append pre [p] 0 i hi
    have hgetP : c'.ops.getD pre.length 0 = p := by
      rw [hops, List.getD_eq_getElem?_getD, List.getElem?_concat_length]
      rfl
    have hlastpre : pre.getD (pre.length - 1) 0 = p + 1 := by
      rw [List.getD_eq_getElem?_getD, ← List.getLast?_eq_getElem?, hlast]
      rfl
    constructor
    · intro i hj hlt
      rcases Nat.lt_or_ge (i + 1) pre.length with hin | hout
      · exfalso
        rw [hgetIn (i + 1) hin, hgetIn i (by omega), AdjUp_getD pre hpre i hin] at hlt
        omega
      · have hieq : i + 1 = pre.length := by omega
        have e1 : c'.ops.getD (i + 1) 0 = p := by rw [hieq]; exact hgetP
        have e2 : c'.ops.getD i 0 = p + 1 := by
          rw [hgetIn i (by omega), show i = pre.length - 1 from by omega]
          exact hlastpre
        rw [e1, e2]
        exact ⟨by omega, rfl, htr, hc1, hc2, hc3⟩
    · intro i hj hnlt
      rcases Nat.lt_or_ge (i + 1) pre.length with hin | hout
      · rw [hgetIn (i + 1) hin, hgetIn i (by omega)]
        exact AdjUp_getD pre hpre i hin
      · exfalso
        have hieq : i + 1 = pre.length := by omega
        apply hnlt
        have e1 : c'.ops.getD (i + 1) 0 = p := by rw [hieq]; exact hgetP
        have e2 : c'.ops.getD i 0 = p + 1 := by
          rw [hgetIn i (by omega), show i = pre.length - 1 from by omega]
          exact hlastpre
        rw [e1, e2]
        omega

/-- The final context of the streaming parse of `[1]2`, which exercises the
one-step back-up (ops `[1, 2, 3, 4, 3]`), used by the C6 witness. -/
def ctxBackup : Ctx :=
  { dp := { buf := [91, 49, 93, 50], structural_indexes := [0, 1, 2, 3],
            next_structural_index := 3 },
    cursor := 3, depth := 0,
    trace := [Event.start_document, Event.start_array, Event.primitive 1,
      Event.end_array, Event.end_document],
    ops := [1, 2, 3, 4, 3] }

/-- Witness for C6: the streaming parse of `[1]2` records cursor operations
`[1, 2, 3, 4, 3]`; the decrement at the last pair is by one, the trace ends
with `end_document`, and the byte read at the backed-up position (`2`, a
primitive start) is not `,`, `]` or `}`. -/
theorem c6_witness :
    parse true noopBuilder 20
        { buf := [91, 49, 93, 50], structural_indexes := [0, 1, 2, 3],
          next_structural_index := 0 } = some (ErrorCode.SUCCESS, ctxBackup) ∧
    (3 + 1 < ctxBackup.ops.length ∧
     ctxBackup.ops.getD 4 0 < ctxBackup.ops.getD 3 0 ∧
     (3 + 2 = ctxBackup.ops.length ∧
      ctxBackup.ops.getD 3 0 = ctxBackup.ops.getD 4 0 + 1 ∧
      ctxBackup.trace.getLast? = some Event.end_document ∧
      ¬ctxBackup.dp.tok (ctxBackup.ops.getD 4 0) = COMMA ∧
      ¬ctxBackup.dp.tok (ctxBackup.ops.getD 4 0) = RBRACK ∧
      ¬ctxBackup.dp.tok (ctxBackup.ops.getD 4 0) = RBRACE)) :=
  ⟨rfl,
   by decide, by decide,
   (c6_cursor_monotone_one_backup true noopBuilder 20
     { buf := [91, 49, 93, 50], structural_indexes := [0, 1, 2, 3],
       next_structural_index := 0 }
     ErrorCode.SUCCESS ctxBackup rfl).1 3 (by decide) (by decide)⟩

/-! ### C2: one complete top-level value plus residual tokens

The claim compares the machine against the JSON grammar, so we need a
grammar-side definition.  `specConsume` below follows the spec's grammar
(§4.2) over first bytes of tokens; `gparse` is the machine-compatible
grammar used for the amended universal theorem, with the two deviations the
counterexamples force: the element-resume restriction (a string element
reached through the `generic_next` resume path must close its array), and
the propagation flag recording whether the walk is in the resume path. -/

/-- Tags of the grammar functions: a value, an object-field tail (at the
separator after a field value), or an array-element tail (at the separator
after an element; the flag is used only by the machine-compatible grammar
and records whether the previous element was closed through the
`generic_next` resume path). -/
inductive GTag where
  | gval
  | gftail
  | getail (pc : Bool)
deriving DecidableEq

/-- Modelled from the spec: a recursive-descent consumer of the JSON grammar
over the structural token stream (spec §4.2; strings and all other scalar
first bytes are primitives).  `specConsume dp fuel GTag.gval i` returns the
position one past the complete value starting at token `i`; the flag of
`getail` is ignored here (this is the full grammar, with no machine
deviation). -/
def specConsume (dp : DomParser) : Nat → GTag → Nat → Option Nat
  | 0, _, _ => none
  | fuel+1, GTag.gval, i =>
    if dp.tok i = LBRACE then
      if dp.tok (i+1) = RBRACE then some (i+2)
      else if dp.tok (i+1) = QUOTE ∧ dp.tok (i+2) = COLON then
        match specConsume dp fuel GTag.gval (i+3) with
        | some j => specConsume dp fuel GTag.gftail j
        | none => none
      else none
    else if dp.tok i = LBRACK then
      if dp.tok (i+1) = RBRACK then some (i+2)
      else
        match specConsume dp fuel GTag.gval (i+1) with
        | some j => specConsume dp fuel (GTag.getail false) j
        | none => none
    else if dp.tok i = RBRACE ∨ dp.tok i = RBRACK ∨ dp.tok i = COMMA ∨ dp.tok i = COLON then
      none
    else some (i+1)
  | fuel+1, GTag.gftail, j =>
    if dp.tok j = RBRACE then some (j+1)
    else if dp.tok j = COMMA ∧ dp.tok (j+1) = QUOTE ∧ dp.tok (j+2) = COLON then
      match specConsume dp fuel GTag.gval (j+3) with
      | some e => specConsume dp fuel GTag.gftail e
      | none => none
    else none
  | fuel+1, GTag.getail _, j =>
    if dp.tok j = RBRACK then some (j+1)
    else if dp.tok j = COMMA then
      match specConsume dp fuel GTag.gval (j+1) with
      | some e => specConsume dp fuel (GTag.getail false) e
      | none => none
    else none

/-- The token at `i` opens a non-empty container. -/
def necAt (dp : DomParser) (i : Nat) : Bool :=
  (dp.tok i == LBRACE && dp.tok (i+1) != RBRACE) ||
  (dp.tok i == LBRACK && dp.tok (i+1) != RBRACK)

/-- The token at `i` opens a container (empty or not). -/
def contAt (dp : DomParser) (i : Nat) : Bool :=
  dp.tok i == LBRACE || dp.tok i == LBRACK

/-- The machine-compatible JSON grammar: full JSON except that, inside an
array, a string element whose predecessor element was walked through the
`generic_next` resume path must be the last element of the array (the
source's `generic_next` `,"` `,` case leaves the cursor one token ahead, so
such inputs fail with `TAPE_ERROR`; see the C2 counterexample). -/
def gparse (dp : DomParser) : Nat → GTag → Nat → Option Nat
  | 0, _, _ => none
  | fuel+1, GTag.gval, i =>
    if dp.tok i = LBRACE then
      if dp.tok (i+1) = RBRACE then some (i+2)
      else if dp.tok (i+1) = QUOTE ∧ dp.tok (i+2) = COLON then
        match gparse dp fuel GTag.gval (i+3) with
        | some j => gparse dp fuel GTag.gftail j
        | none => none
      else none
    else if dp.tok i = LBRACK then
      if dp.tok (i+1) = RBRACK then some (i+2)
      else
        match gparse dp fuel GTag.gval (i+1) with
        | some j => gparse dp fuel (GTag.getail (necAt dp (i+1))) j
        | none => none
    else if dp.tok i = RBRACE ∨ dp.tok i = RBRACK ∨ dp.tok i = COMMA ∨ dp.tok i = COLON then
      none
    else some (i+1)
  | fuel+1, GTag.gftail, j =>
    if dp.tok j = RBRACE then some (j+1)
    else if dp.tok j = COMMA ∧ dp.tok (j+1) = QUOTE ∧ dp.tok (j+2) = COLON then
      match gparse dp fuel GTag.gval (j+3) with
      | some e => gparse dp fuel GTag.gftail e
      | none => none
    else none
  | fuel+1, GTag.getail pc, j =>
    if dp.tok j = RBRACK then some (j+1)
    else if dp.tok j = COMMA then
      if pc = true ∧ dp.tok (j+1) = QUOTE then
        if dp.tok (j+2) = RBRACK then some (j+3) else none
      else
        match gparse dp fuel GTag.gval (j+1) with
        | some e =>
          gparse dp fuel (GTag.getail (if pc then contAt dp (j+1) else necAt dp (j+1))) e
        | none => none
    else none

/-- The machine state that handles the separator after an object field
value: `object_next` normally, `generic_next` when the value was a closed
container. -/
def objExit (pc : Bool) : PState :=
  if pc then PState.generic_next else PState.object_next

/-- The machine state that handles the separator after an array element:
`array_next` normally, `generic_next` when the element was a closed
container. -/
def arrExit (pc : Bool) : PState :=
  if pc then PState.generic_next else PState.array_next

/-- The machine from `(st, c)` reaches `(st', c')` in `k` deterministic
steps, for either streaming mode and any remaining fuel. -/
def Steps (b : Builder) (st : PState) (c : Ctx) (st' : PState) (c' : Ctx) : Prop :=
  ∃ k, ∀ (s : Bool) (fuel : Nat), run s b (fuel + k) st c = run s b fuel st' c'

lemma Steps_refl {b : Builder} {st : PState} {c : Ctx} : Steps b st c st c :=
  ⟨0, fun _ _ => rfl⟩

lemma Steps_trans {b : Builder} {st st' st'' : PState} {c c' c'' : Ctx}
    (h1 : Steps b st c st' c') (h2 : Steps b st' c' st'' c'') : Steps b st c st'' c'' := by
  obtain ⟨k1, hk1⟩ := h1
  obtain ⟨k2, hk2⟩ := h2
  refine ⟨k2 + k1, fun s fuel => ?_⟩
  rw [show fuel + (k2 + k1) = (fuel + k2) + k1 from by omega, hk1, hk2]

/-- A single machine step. -/
lemma Steps_one {b : Builder} {st st' : PState} {c c' : Ctx}
    (h : ∀ (s : Bool) (fuel : Nat), run s b (fuel + 1) st c = run s b fuel st' c') :
    Steps b st c st' c' := ⟨1, h⟩

/-- The machine configuration at grammar position `i` with builder stack
`stk`: the session is `dp`, the cursor is at `i`, a conforming builder's
kind stack after the trace so far is `stk`, and the parser depth (maintained
by that builder) is the stack height. -/
def Conf (dp : DomParser) (i : Nat) (stk : List JKind) (c : Ctx) : Prop :=
  c.dp = dp ∧ c.cursor = i ∧ stackOf c.trace = stk ∧ c.depth = stk.length

lemma stackOf_snoc (t : List Event) (ev : Event) :
    stackOf (t ++ [ev]) = stackDelta ev (stackOf t) := by
  simp [stackOf, List.foldl_append]

lemma Conf_adv {dp : DomParser} {i : Nat} {stk : List JKind} {c : Ctx}
    (h : Conf dp i stk c) : Conf dp (i + 1) stk c.adv := by
  obtain ⟨h1, h2, h3, h4⟩ := h
  exact ⟨h1, by simp [Ctx.adv, h2], h3, h4⟩

lemma Conf_emit {dp : DomParser} {i : Nat} {stk : List JKind} {c : Ctx} (ev : Event)
    (h : Conf dp i stk c) :
    Conf dp i (stackDelta ev stk) (emit modelBuilder c ev).2 := by
  obtain ⟨h1, h2, h3, h4⟩ := h
  refine ⟨by simp [emit, h1], by simp [emit, h2], ?_, ?_⟩
  · simp only [emit]
    rw [stackOf_snoc, h3]
  · cases ev <;> simp [emit, modelBuilder, stackDelta, h4] <;> cases stk <;> simp

/-! Success of conforming-builder callbacks used by the simulation. -/

lemma M_ok_resume_arr (c : Ctx) {stk : List JKind} {v : Option Nat}
    (h : stackOf c.trace = JKind.karr :: stk) :
    (emit modelBuilder c (Event.try_resume_array v)).1 = ErrorCode.SUCCESS := by
  simp [emit, modelBuilder, h]

lemma M_ok_resume_obj (c : Ctx) {stk : List JKind}
    (h : stackOf c.trace = JKind.kobj :: stk) :
    (emit modelBuilder c Event.try_resume_object).1 = ErrorCode.SUCCESS := by
  simp [emit, modelBuilder, h]

lemma M_ok_end_arr (c : Ctx) {stk : List JKind}
    (h : stackOf c.trace = JKind.karr :: stk) :
    (emit modelBuilder c Event.try_end_array).1 = ErrorCode.SUCCESS := by
  simp [emit, modelBuilder, h]

lemma M_ok_end_obj (c : Ctx) {stk : List JKind}
    (h : stackOf c.trace = JKind.kobj :: stk) :
    (emit modelBuilder c Event.try_end_object).1 = ErrorCode.SUCCESS := by
  simp [emit, modelBuilder, h]

/-! Single-step transition lemmas, one per branch of `run` used by the
simulation.  Hypotheses are stated in the syntactic form in which the
branch conditions appear in `run`. -/

lemma stepOB_empty {c : Ctx} (h : c.adv.dp.byteAt c.curOff = RBRACE) :
    Steps modelBuilder PState.generic_object_begin c
      PState.generic_next (emit modelBuilder c.adv Event.empty_object).2 := by
  refine Steps_one fun s fuel => ?_
  simp only [run, tryEmit]
  rw [if_pos h]
  simp [emit, modelBuilder]

lemma stepOB_obj {c : Ctx} (h1 : ¬c.adv.dp.byteAt c.curOff = RBRACE)
    (h2 : c.adv.dp.byteAt c.curOff = QUOTE) :
    Steps modelBuilder PState.generic_object_begin c
      (PState.object_colon c.curOff) (emit modelBuilder c.adv Event.start_object).2 := by
  refine Steps_one fun s fuel => ?_
  simp only [run, tryEmit]
  rw [if_neg h1, if_pos h2]
  simp [emit, modelBuilder]

lemma stepOC {key : Nat} {c : Ctx} (h : c.curByte = COLON) :
    Steps modelBuilder (PState.object_colon key) c (PState.object_value key) c.adv := by
  refine Steps_one fun s fuel => ?_
  simp only [run]
  rw [if_pos h]

lemma stepOV_prim {key : Nat} {c : Ctx}
    (h1 : ¬c.adv.dp.byteAt c.curOff = LBRACE) (h2 : ¬c.adv.dp.byteAt c.curOff = LBRACK) :
    Steps modelBuilder (PState.object_value key) c
      PState.object_next (emit modelBuilder c.adv (Event.primitive_field key c.curOff)).2 := by
  refine Steps_one fun s fuel => ?_
  simp only [run, tryEmit]
  rw [if_neg h1, if_neg h2]
  simp [emit, modelBuilder]

lemma stepOV_objEmpty {key : Nat} {c : Ctx}
    (h1 : c.adv.dp.byteAt c.curOff = LBRACE)
    (h2 : c.adv.adv.dp.byteAt c.adv.curOff = RBRACE) :
    Steps modelBuilder (PState.object_value key) c
      PState.object_next (emit modelBuilder c.adv.adv (Event.empty_object_field key)).2 := by
  refine Steps_one fun s fuel => ?_
  simp only [run, tryEmit]
  rw [if_pos h1, if_pos h2]
  simp [emit, modelBuilder]

lemma stepOV_objKey {key : Nat} {c : Ctx}
    (h1 : c.adv.dp.byteAt c.curOff = LBRACE)
    (h2 : ¬c.adv.adv.dp.byteAt c.adv.curOff = RBRACE)
    (h3 : c.adv.adv.dp.byteAt c.adv.curOff = QUOTE) :
    Steps modelBuilder (PState.object_value key) c
      (PState.object_colon c.adv.curOff)
      (emit modelBuilder c.adv.adv (Event.start_object_field key)).2 := by
  refine Steps_one fun s fuel => ?_
  simp only [run, tryEmit]
  rw [if_pos h1, if_neg h2, if_pos h3]
  simp [emit, modelBuilder]

lemma stepOV_arrEmpty {key : Nat} {c : Ctx}
    (h1 : ¬c.adv.dp.byteAt c.curOff = LBRACE)
    (h2 : c.adv.dp.byteAt c.curOff = LBRACK)
    (h3 : c.adv.adv.dp.byteAt c.adv.curOff = RBRACK) :
    Steps modelBuilder (PState.object_value key) c
      PState.object_next (emit modelBuilder c.adv.adv (Event.empty_array_field key)).2 := by
  refine Steps_one fun s fuel => ?_
  simp only [run, tryEmit]
  rw [if_neg h1, if_pos h2, if_pos h3]
  simp [emit, modelBuilder]

lemma stepOV_arr {key : Nat} {c : Ctx}
    (h1 : ¬c.adv.dp.byteAt c.curOff = LBRACE)
    (h2 : c.adv.dp.byteAt c.curOff = LBRACK)
    (h3 : ¬c.adv.adv.dp.byteAt c.adv.curOff = RBRACK) :
    Steps modelBuilder (PState.object_value key) c
      (PState.array_value c.adv.curOff)
      (emit modelBuilder c.adv.adv (Event.start_array_field key)).2 := by
  refine Steps_one fun s fuel => ?_
  simp only [run, tryEmit]
  rw [if_neg h1, if_pos h2, if_neg h3]
  simp [emit, modelBuilder]

lemma stepON_close {c : Ctx} (h1 : ¬c.curByte = COMMA) (h2 : c.curByte = RBRACE) :
    Steps modelBuilder PState.object_next c
      PState.generic_next (emit modelBuilder c.adv Event.end_object).2 := by
  refine Steps_one fun s fuel => ?_
  simp only [run, tryEmit]
  rw [if_neg h1, if_pos h2]
  simp [emit, modelBuilder]

lemma stepON_comma {c : Ctx} (h1 : c.curByte = COMMA)
    (h2 : c.adv.adv.dp.byteAt c.adv.curOff = QUOTE) :
    Steps modelBuilder PState.object_next c
      (PState.object_colon c.adv.curOff) c.adv.adv := by
  refine Steps_one fun s fuel => ?_
  simp only [run]
  rw [if_pos h1, if_pos h2]

lemma stepAB_empty {c : Ctx} (h : c.adv.dp.byteAt c.curOff = RBRACK) :
    Steps modelBuilder PState.generic_array_begin c
      PState.generic_next (emit modelBuilder c.adv Event.empty_array).2 := by
  refine Steps_one fun s fuel => ?_
  simp only [run, tryEmit]
  rw [if_pos h]
  simp [emit, modelBuilder]

lemma stepAB_elem {c : Ctx} (h : ¬c.adv.dp.byteAt c.curOff = RBRACK) :
    Steps modelBuilder PState.generic_array_begin c
      (PState.array_value c.curOff) (emit modelBuilder c.adv Event.start_array).2 := by
  refine Steps_one fun s fuel => ?_
  simp only [run, tryEmit]
  rw [if_neg h]
  simp [emit, modelBuilder]

lemma stepAV_prim {voff : Nat} {c : Ctx}
    (h1 : ¬c.dp.byteAt voff = LBRACE) (h2 : ¬c.dp.byteAt voff = LBRACK) :
    Steps modelBuilder (PState.array_value voff) c
      PState.array_next (emit modelBuilder c (Event.primitive voff)).2 := by
  refine Steps_one fun s fuel => ?_
  simp only [run, tryEmit]
  rw [if_neg h1, if_neg h2]
  simp [emit, modelBuilder]

lemma stepAV_objEmpty {voff : Nat} {c : Ctx}
    (h1 : c.dp.byteAt voff = LBRACE)
    (h2 : c.adv.dp.byteAt c.curOff = RBRACE) :
    Steps modelBuilder (PState.array_value voff) c
      PState.array_next (emit modelBuilder c.adv Event.empty_object).2 := by
  refine Steps_one fun s fuel => ?_
  simp only [run, tryEmit]
  rw [if_pos h1, if_pos h2]
  simp [emit, modelBuilder]

lemma stepAV_objKey {voff : Nat} {c : Ctx}
    (h1 : c.dp.byteAt voff = LBRACE)
    (h2 : ¬c.adv.dp.byteAt c.curOff = RBRACE)
    (h3 : c.adv.dp.byteAt c.curOff = QUOTE) :
    Steps modelBuilder (PState.array_value voff) c
      (PState.object_colon c.curOff) (emit modelBuilder c.adv Event.start_object).2 := by
  refine Steps_one fun s fuel => ?_
  simp only [run, tryEmit]
  rw [if_pos h1, if_neg h2, if_pos h3]
  simp [emit, modelBuilder]

lemma stepAV_arrEmpty {voff : Nat} {c : Ctx}
    (h1 : ¬c.dp.byteAt voff = LBRACE)
    (h2 : c.dp.byteAt voff = LBRACK)
    (h3 : c.adv.dp.byteAt c.curOff = RBRACK) :
    Steps modelBuilder (PState.array_value voff) c
      PState.array_next (emit modelBuilder c.adv Event.empty_array).2 := by
  refine Steps_one fun s fuel => ?_
  simp only [run, tryEmit]
  rw [if_neg h1, if_pos h2, if_pos h3]
  simp [emit, modelBuilder]

lemma stepAV_arr {voff : Nat} {c : Ctx}
    (h1 : ¬c.dp.byteAt voff = LBRACE)
    (h2 : c.dp.byteAt voff = LBRACK)
    (h3 : ¬c.adv.dp.byteAt c.curOff = RBRACK) :
    Steps modelBuilder (PState.array_value voff) c
      (PState.array_value c.curOff) (emit modelBuilder c.adv Event.start_array).2 := by
  refine Steps_one fun s fuel => ?_
  simp only [run, tryEmit]
  rw [if_neg h1, if_pos h2, if_neg h3]
  simp [emit, modelBuilder]

lemma stepAN_close {c : Ctx} (h1 : ¬c.curByte = COMMA) (h2 : c.curByte = RBRACK) :
    Steps modelBuilder PState.array_next c
      PState.generic_next (emit modelBuilder c.adv Event.end_array).2 := by
  refine Steps_one fun s fuel => ?_
  simp only [run, tryEmit]
  rw [if_neg h1, if_pos h2]
  simp [emit, modelBuilder]

lemma stepAN_comma {c : Ctx} (h1 : c.curByte = COMMA) :
    Steps modelBuilder PState.array_next c
      (PState.array_value c.adv.curOff) c.adv.adv := by
  refine Steps_one fun s fuel => ?_
  simp only [run]
  rw [if_pos h1]

lemma stepGN_endArr {stk : List JKind} {c : Ctx}
    (h1 : ¬c.curByte = COMMA) (h2 : c.curByte = RBRACK)
    (hst : stackOf c.trace = JKind.karr :: stk) :
    Steps modelBuilder PState.generic_next c
      PState.generic_next (emit modelBuilder c.adv Event.try_end_array).2 := by
  refine Steps_one fun s fuel => ?_
  simp only [run, tryEmit]
  rw [if_neg h1, if_pos h2, if_pos (M_ok_end_arr c.adv hst)]

lemma stepGN_endObj {stk : List JKind} {c : Ctx}
    (h1 : ¬c.curByte = COMMA) (h2 : ¬c.curByte = RBRACK) (h3 : c.curByte = RBRACE)
    (hst : stackOf c.trace = JKind.kobj :: stk) :
    Steps modelBuilder PState.generic_next c
      PState.generic_next (emit modelBuilder c.adv Event.try_end_object).2 := by
  refine Steps_one fun s fuel => ?_
  simp only [run, tryEmit]
  rw [if_neg h1, if_neg h2, if_pos h3, if_pos (M_ok_end_obj c.adv hst)]

lemma stepGN_prim {stk : List JKind} {c : Ctx}
    (h1 : c.curByte = COMMA)
    (h2 : ¬c.adv.adv.dp.byteAt c.adv.curOff = QUOTE)
    (h3 : ¬c.adv.adv.dp.byteAt c.adv.curOff = LBRACK)
    (h4 : ¬c.adv.adv.dp.byteAt c.adv.curOff = LBRACE)
    (hst : stackOf c.trace = JKind.karr :: stk) :
    Steps modelBuilder PState.generic_next c
      (PState.array_value c.adv.curOff)
      (emit modelBuilder c.adv.adv (Event.try_resume_array none)).2 := by
  refine Steps_one fun s fuel => ?_
  simp only [run, tryEmit]
  rw [if_pos h1, if_neg h2, if_neg h3, if_neg h4, if_pos (M_ok_resume_arr c.adv.adv hst)]

lemma stepGN_arr {stk : List JKind} {c : Ctx}
    (h1 : c.curByte = COMMA)
    (h2 : ¬c.adv.adv.dp.byteAt c.adv.curOff = QUOTE)
    (h3 : c.adv.adv.dp.byteAt c.adv.curOff = LBRACK)
    (hst : stackOf c.trace = JKind.karr :: stk) :
    Steps modelBuilder PState.generic_next c
      PState.generic_array_begin
      (emit modelBuilder c.adv.adv (Event.try_resume_array none)).2 := by
  refine Steps_one fun s fuel => ?_
  simp only [run, tryEmit]
  rw [if_pos h1, if_neg h2, if_pos h3, if_pos (M_ok_resume_arr c.adv.adv hst)]

lemma stepGN_obj {stk : List JKind} {c : Ctx}
    (h1 : c.curByte = COMMA)
    (h2 : ¬c.adv.adv.dp.byteAt c.adv.curOff = QUOTE)
    (h3 : ¬c.adv.adv.dp.byteAt c.adv.curOff = LBRACK)
    (h4 : c.adv.adv.dp.byteAt c.adv.curOff = LBRACE)
    (hst : stackOf c.trace = JKind.karr :: stk) :
    Steps modelBuilder PState.generic_next c
      PState.generic_object_begin
      (emit modelBuilder c.adv.adv (Event.try_resume_array none)).2 := by
  refine Steps_one fun s fuel => ?_
  simp only [run, tryEmit]
  rw [if_pos h1, if_neg h2, if_neg h3, if_pos h4, if_pos (M_ok_resume_arr c.adv.adv hst)]

lemma stepGN_strColon {stk : List JKind} {c : Ctx}
    (h1 : c.curByte = COMMA)
    (h2 : c.adv.adv.dp.byteAt c.adv.curOff = QUOTE)
    (h3 : c.adv.adv.curByte = COLON)
    (hst : stackOf c.trace = JKind.kobj :: stk) :
    Steps modelBuilder PState.generic_next c
      (PState.object_value c.adv.curOff)
      (emit modelBuilder c.adv.adv.adv Event.try_resume_object).2 := by
  refine Steps_one fun s fuel => ?_
  simp only [run, tryEmit]
  rw [if_pos h1, if_pos h2, if_pos h3, if_pos (M_ok_resume_obj c.adv.adv.adv hst)]

lemma stepGN_strClose {stk : List JKind} {c : Ctx}
    (h1 : c.curByte = COMMA)
    (h2 : c.adv.adv.dp.byteAt c.adv.curOff = QUOTE)
    (h3 : ¬c.adv.adv.curByte = COLON)
    (h4 : ¬c.adv.adv.curByte = COMMA)
    (h5 : c.adv.adv.curByte = RBRACK)
    (hst : stackOf c.trace = JKind.karr :: stk) :
    Steps modelBuilder PState.generic_next c
      PState.generic_next
      (emit modelBuilder
        (emit modelBuilder c.adv.adv.adv
          (Event.try_resume_array (some c.adv.curOff))).2 Event.end_array).2 := by
  refine Steps_one fun s fuel => ?_
  simp only [run, tryEmit]
  rw [if_pos h1, if_pos h2, if_neg h3, if_neg h4, if_pos h5,
    if_pos (M_ok_resume_arr c.adv.adv.adv hst)]
  simp [emit, modelBuilder]

/-! Byte views of a configuration, in the syntactic forms used by `run`. -/

lemma Conf_byte0 {dp : DomParser} {i : Nat} {stk : List JKind} {c : Ctx}
    (h : Conf dp i stk c) : c.adv.dp.byteAt c.curOff = dp.tok i := by
  obtain ⟨h1, h2, -, -⟩ := h
  simp [Ctx.adv, Ctx.curOff, DomParser.tok, h1, h2]

lemma Conf_byte1 {dp : DomParser} {i : Nat} {stk : List JKind} {c : Ctx}
    (h : Conf dp i stk c) : c.adv.adv.dp.byteAt c.adv.curOff = dp.tok (i + 1) := by
  obtain ⟨h1, h2, -, -⟩ := h
  simp [Ctx.adv, Ctx.curOff, DomParser.tok, h1, h2]

lemma Conf_curByte {dp : DomParser} {i : Nat} {stk : List JKind} {c : Ctx}
    (h : Conf dp i stk c) : c.curByte = dp.tok i := by
  obtain ⟨h1, h2, -, -⟩ := h
  simp [Ctx.curByte, Ctx.adv, Ctx.curOff, DomParser.tok, h1, h2]

lemma Conf_curByte2 {dp : DomParser} {i : Nat} {stk : List JKind} {c : Ctx}
    (h : Conf dp i stk c) : c.adv.adv.curByte = dp.tok (i + 2) := by
  obtain ⟨h1, h2, -, -⟩ := h
  simp [Ctx.curByte, Ctx.adv, Ctx.curOff, DomParser.tok, h1, h2]

lemma Conf_off0 {dp : DomParser} {i : Nat} {stk : List JKind} {c : Ctx}
    (h : Conf dp i stk c) : c.curOff = dp.idxAt i := by
  obtain ⟨h1, h2, -, -⟩ := h
  simp [Ctx.curOff, h1, h2]

lemma Conf_off1 {dp : DomParser} {i : Nat} {stk : List JKind} {c : Ctx}
    (h : Conf dp i stk c) : c.adv.curOff = dp.idxAt (i + 1) := by
  obtain ⟨h1, h2, -, -⟩ := h
  simp [Ctx.adv, Ctx.curOff, h1, h2]

lemma Conf_vbyte {dp : DomParser} {i : Nat} {stk : List JKind} {c : Ctx}
    (h : Conf dp i stk c) (v : Nat) : c.dp.byteAt (dp.idxAt v) = dp.tok v := by
  rw [h.1]
  rfl

/-! The six simulation statements, by grammar fuel: a field value walked from
`object_value`; an element walked from `array_value`; a non-empty or empty
object walked from `generic_object_begin` (resp. array from
`generic_array_begin`); an object-field tail from `object_next`/`generic_next`;
an array-element tail from `array_next`/`generic_next`. -/

def SimA (g : Nat) : Prop :=
  ∀ (dp : DomParser) (v e key : Nat) (stk : List JKind) (c : Ctx),
    gparse dp g GTag.gval v = some e → Conf dp v stk c →
    ∃ c', Steps modelBuilder (PState.object_value key) c (objExit (necAt dp v)) c' ∧
      Conf dp e stk c'

def SimB (g : Nat) : Prop :=
  ∀ (dp : DomParser) (v e : Nat) (stk : List JKind) (c : Ctx),
    gparse dp g GTag.gval v = some e → Conf dp (v + 1) stk c →
    ∃ c', Steps modelBuilder (PState.array_value (dp.idxAt v)) c (arrExit (necAt dp v)) c' ∧
      Conf dp e stk c'

def SimOB (g : Nat) : Prop :=
  ∀ (dp : DomParser) (v e : Nat) (stk : List JKind) (c : Ctx),
    gparse dp g GTag.gval v = some e → dp.tok v = LBRACE → Conf dp (v + 1) stk c →
    ∃ c', Steps modelBuilder PState.generic_object_begin c PState.generic_next c' ∧
      Conf dp e stk c'

def SimAB (g : Nat) : Prop :=
  ∀ (dp : DomParser) (v e : Nat) (stk : List JKind) (c : Ctx),
    gparse dp g GTag.gval v = some e → dp.tok v = LBRACK → Conf dp (v + 1) stk c →
    ∃ c', Steps modelBuilder PState.generic_array_begin c PState.generic_next c' ∧
      Conf dp e stk c'

def SimF (g : Nat) : Prop :=
  ∀ (dp : DomParser) (j out : Nat) (stk : List JKind) (c : Ctx) (pc : Bool),
    gparse dp g GTag.gftail j = some out → Conf dp j (JKind.kobj :: stk) c →
    ∃ c', Steps modelBuilder (objExit pc) c PState.generic_next c' ∧ Conf dp out stk c'

def SimE (g : Nat) : Prop :=
  ∀ (dp : DomParser) (j out : Nat) (stk : List JKind) (c : Ctx) (pc : Bool),
    gparse dp g (GTag.getail pc) j = some out → Conf dp j (JKind.karr :: stk) c →
    ∃ c', Steps modelBuilder (arrExit pc) c PState.generic_next c' ∧ Conf dp out stk c'

/-! Evaluation of the container flags under byte facts. -/

lemma necAt_obj {dp : DomParser} {v : Nat} (h1 : dp.tok v = LBRACE)
    (h2 : dp.tok (v + 1) ≠ RBRACE) : necAt dp v = true := by
  simp only [necAt]
  rw [h1, bne_iff_ne.mpr h2]
  rfl

lemma necAt_arr {dp : DomParser} {v : Nat} (h1 : dp.tok v = LBRACK)
    (h2 : dp.tok (v + 1) ≠ RBRACK) : necAt dp v = true := by
  simp only [necAt]
  rw [h1, bne_iff_ne.mpr h2]
  simp

lemma necAt_objEmpty {dp : DomParser} {v : Nat} (h1 : dp.tok v = LBRACE)
    (h2 : dp.tok (v + 1) = RBRACE) : necAt dp v = false := by
  simp only [necAt]
  rw [h1, h2]
  rfl

lemma necAt_arrEmpty {dp : DomParser} {v : Nat} (h1 : dp.tok v = LBRACK)
    (h2 : dp.tok (v + 1) = RBRACK) : necAt dp v = false := by
  simp only [necAt]
  rw [h1, h2]
  rfl

lemma necAt_prim {dp : DomParser} {v : Nat} (h1 : dp.tok v ≠ LBRACE)
    (h2 : dp.tok v ≠ LBRACK) : necAt dp v = false := by
  simp only [necAt]
  rw [beq_eq_false_iff_ne.mpr h1, beq_eq_false_iff_ne.mpr h2]
  rfl

lemma contAt_obj {dp : DomParser} {v : Nat} (h : dp.tok v = LBRACE) :
    contAt dp v = true := by
  simp only [contAt]
  rw [h]
  rfl

lemma contAt_arr {dp : DomParser} {v : Nat} (h : dp.tok v = LBRACK) :
    contAt dp v = true := by
  simp only [contAt]
  rw [h]
  simp

lemma contAt_prim {dp : DomParser} {v : Nat} (h1 : dp.tok v ≠ LBRACE)
    (h2 : dp.tok v ≠ LBRACK) : contAt dp v = false := by
  simp only [contAt]
  rw [beq_eq_false_iff_ne.mpr h1, beq_eq_false_iff_ne.mpr h2]
  rfl

/-- The six simulation statements hold at every grammar fuel: every value the
machine-compatible grammar accepts is walked by the state machine with the
conforming builder, ending in the matching exit state with the cursor one
past the value and the builder stack restored. -/
theorem simAll : ∀ g : Nat, SimA g ∧ SimB g ∧ SimOB g ∧ SimAB g ∧ SimF g ∧ SimE g := by
  intro g
  induction g with
  | zero =>
    refine ⟨?_, ?_, ?_, ?_, ?_, ?_⟩
    · intro dp v e key stk c hg hc
      simp [gparse] at hg
    · intro dp v e stk c hg hc
      simp [gparse] at hg
    · intro dp v e stk c hg hb hc
      simp [gparse] at hg
    · intro dp v e stk c hg hb hc
      simp [gparse] at hg
    · intro dp j out stk c pc hg hc
      simp [gparse] at hg
    · intro dp j out stk c pc hg hc
      simp [gparse] at hg
  | succ g ih =>
    obtain ⟨ihA, ihB, ihOB, ihAB, ihF, ihE⟩ := ih
    have hA : SimA (g + 1) := by
      intro dp v e key stk c hg hc
      simp only [gparse] at hg
      split at hg
      · next hb1 =>
        split at hg
        · next hb2 =>
          rw [Option.some.injEq] at hg
          subst hg
          rw [necAt_objEmpty hb1 hb2]
          exact ⟨_, stepOV_objEmpty ((Conf_byte0 hc).trans hb1)
            ((Conf_byte1 hc).trans hb2),
            Conf_emit (Event.empty_object_field key) (Conf_adv (Conf_adv hc))⟩
        · next hb2 =>
          split at hg
          · next hb3 =>
            split at hg
            · next j hj =>
              have hcm : Conf dp (v + 2) (JKind.kobj :: stk)
                  (emit modelBuilder c.adv.adv (Event.start_object_field key)).2 :=
                Conf_emit (Event.start_object_field key) (Conf_adv (Conf_adv hc))
              obtain ⟨c2, hs2, hc2⟩ :=
                ihA dp (v + 3) j c.adv.curOff (JKind.kobj :: stk) _ hj (Conf_adv hcm)
              obtain ⟨c3, hs3, hc3⟩ := ihF dp j e stk c2 (necAt dp (v + 3)) hg hc2
              refine ⟨c3, ?_, hc3⟩
              rw [necAt_obj hb1 (by rw [hb3.1]; decide)]
              exact Steps_trans (stepOV_objKey ((Conf_byte0 hc).trans hb1)
                  (fun hx => hb2 ((Conf_byte1 hc).symm.trans hx))
                  ((Conf_byte1 hc).trans hb3.1))
                (Steps_trans (stepOC ((Conf_curByte hcm).trans hb3.2))
                  (Steps_trans hs2 hs3))
            · simp at hg
          · simp at hg
      · next hb1 =>
        split at hg
        · next hb2 =>
          split at hg
          · next hb3 =>
            rw [Option.some.injEq] at hg
            subst hg
            rw [necAt_arrEmpty hb2 hb3]
            exact ⟨_, stepOV_arrEmpty (fun hx => hb1 ((Conf_byte0 hc).symm.trans hx))
              ((Conf_byte0 hc).trans hb2) ((Conf_byte1 hc).trans hb3),
              Conf_emit (Event.empty_array_field key) (Conf_adv (Conf_adv hc))⟩
          · next hb3 =>
            split at hg
            · next j hj =>
              obtain ⟨c2, hs2, hc2⟩ := ihB dp (v + 1) j (JKind.karr :: stk) _ hj
                (Conf_emit (Event.start_array_field key) (Conf_adv (Conf_adv hc)))
              rw [show dp.idxAt (v + 1) = c.adv.curOff from (Conf_off1 hc).symm] at hs2
              obtain ⟨c3, hs3, hc3⟩ := ihE dp j e stk c2 (necAt dp (v + 1)) hg hc2
              refine ⟨c3, ?_, hc3⟩
              rw [necAt_arr hb2 hb3]
              exact Steps_trans (stepOV_arr (fun hx => hb1 ((Conf_byte0 hc).symm.trans hx))
                  ((Conf_byte0 hc).trans hb2)
                  (fun hx => hb3 ((Conf_byte1 hc).symm.trans hx)))
                (Steps_trans hs2 hs3)
            · simp at hg
        · next hb2 =>
          split at hg
          · simp at hg
          · next hb3 =>
            rw [Option.some.injEq] at hg
            subst hg
            rw [necAt_prim hb1 hb2]
            exact ⟨_, stepOV_prim (fun hx => hb1 ((Conf_byte0 hc).symm.trans hx))
              (fun hx => hb2 ((Conf_byte0 hc).symm.trans hx)),
              Conf_emit (Event.primitive_field key c.curOff) (Conf_adv hc)⟩
    have hB : SimB (g + 1) := by
      intro dp v e stk c hg hc
      simp only [gparse] at hg
      split at hg
      · next hb1 =>
        split at hg
        · next hb2 =>
          rw [Option.some.injEq] at hg
          subst hg
          rw [necAt_objEmpty hb1 hb2]
          exact ⟨_, stepAV_objEmpty ((Conf_vbyte hc v).trans hb1)
            ((Conf_byte0 hc).trans hb2),
            Conf_emit Event.empty_object (Conf_adv hc)⟩
        · next hb2 =>
          split at hg
          · next hb3 =>
            split at hg
            · next j hj =>
              have hcm : Conf dp (v + 2) (JKind.kobj :: stk)
                  (emit modelBuilder c.adv Event.start_object).2 :=
                Conf_emit Event.start_object (Conf_adv hc)
              obtain ⟨c2, hs2, hc2⟩ :=
                ihA dp (v + 3) j c.curOff (JKind.kobj :: stk) _ hj (Conf_adv hcm)
              obtain ⟨c3, hs3, hc3⟩ := ihF dp j e stk c2 (necAt dp (v + 3)) hg hc2
              refine ⟨c3, ?_, hc3⟩
              rw [necAt_obj hb1 (by rw [hb3.1]; decide)]
              exact Steps_trans (stepAV_objKey ((Conf_vbyte hc v).trans hb1)
                  (fun hx => hb2 ((Conf_byte0 hc).symm.trans hx))
                  ((Conf_byte0 hc).trans hb3.1))
                (Steps_trans (stepOC ((Conf_curByte hcm).trans hb3.2))
                  (Steps_trans hs2 hs3))
            · simp at hg
          · simp at hg
      · next hb1 =>
        split at hg
        · next hb2 =>
          split at hg
          · next hb3 =>
            rw [Option.some.injEq] at hg
            subst hg
            rw [necAt_arrEmpty hb2 hb3]
            exact ⟨_, stepAV_arrEmpty (fun hx => hb1 ((Conf_vbyte hc v).symm.trans hx))
              ((Conf_vbyte hc v).trans hb2) ((Conf_byte0 hc).trans hb3),
              Conf_emit Event.empty_array (Conf_adv hc)⟩
          · next hb3 =>
            split at hg
            · next j hj =>
              obtain ⟨c2, hs2, hc2⟩ := ihB dp (v + 1) j (JKind.karr :: stk) _ hj
                (Conf_emit Event.start_array (Conf_adv hc))
              rw [show dp.idxAt (v + 1) = c.curOff from (Conf_off0 hc).symm] at hs2
              obtain ⟨c3, hs3, hc3⟩ := ihE dp j e stk c2 (necAt dp (v + 1)) hg hc2
              refine ⟨c3, ?_, hc3⟩
              rw [necAt_arr hb2 hb3]
              exact Steps_trans (stepAV_arr (fun hx => hb1 ((Conf_vbyte hc v).symm.trans hx))
                  ((Conf_vbyte hc v).trans hb2)
                  (fun hx => hb3 ((Conf_byte0 hc).symm.trans hx)))
                (Steps_trans hs2 hs3)
            · simp at hg
        · next hb2 =>
          split at hg
          · simp at hg
          · next hb3 =>
            rw [Option.some.injEq] at hg
            subst hg
            rw [necAt_prim hb1 hb2]
            exact ⟨_, stepAV_prim (fun hx => hb1 ((Conf_vbyte hc v).symm.trans hx))
              (fun hx => hb2 ((Conf_vbyte hc v).symm.trans hx)),
              Conf_emit (Event.primitive (dp.idxAt v)) hc⟩
    have hOB : SimOB (g + 1) := by
      intro dp v e stk c hg hb hc
      simp only [gparse] at hg
      split at hg
      · next hb1 =>
        split at hg
        · next hb2 =>
          rw [Option.some.injEq] at hg
          subst hg
          exact ⟨_, stepOB_empty ((Conf_byte0 hc).trans hb2),
            Conf_emit Event.empty_object (Conf_adv hc)⟩
        · next hb2 =>
          split at hg
          · next hb3 =>
            split at hg
            · next j hj =>
              have hcm : Conf dp (v + 2) (JKind.kobj :: stk)
                  (emit modelBuilder c.adv Event.start_object).2 :=
                Conf_emit Event.start_object (Conf_adv hc)
              obtain ⟨c2, hs2, hc2⟩ :=
                ihA dp (v + 3) j c.curOff (JKind.kobj :: stk) _ hj (Conf_adv hcm)
              obtain ⟨c3, hs3, hc3⟩ := ihF dp j e stk c2 (necAt dp (v + 3)) hg hc2
              exact ⟨c3, Steps_trans (stepOB_obj
                  (fun hx => hb2 ((Conf_byte0 hc).symm.trans hx))
                  ((Conf_byte0 hc).trans hb3.1))
                (Steps_trans (stepOC ((Conf_curByte hcm).trans hb3.2))
                  (Steps_trans hs2 hs3)), hc3⟩
            · simp at hg
          · simp at hg
      · next hb1 => exact absurd hb hb1
    have hAB : SimAB (g + 1) := by
      intro dp v e stk c hg hb hc
      simp only [gparse] at hg
      split at hg
      · next hb1 => exact absurd (hb1.symm.trans hb) (by decide)
      · next hb1 =>
        split at hg
        · next hb3 =>
          rw [Option.some.injEq] at hg
          subst hg
          exact ⟨_, stepAB_empty ((Conf_byte0 hc).trans hb3),
            Conf_emit Event.empty_array (Conf_adv hc)⟩
        · next hb3 =>
          split at hg
          · next j hj =>
            obtain ⟨c2, hs2, hc2⟩ := ihB dp (v + 1) j (JKind.karr :: stk) _ hj
              (Conf_emit Event.start_array (Conf_adv hc))
            rw [show dp.idxAt (v + 1) = c.curOff from (Conf_off0 hc).symm] at hs2
            obtain ⟨c3, hs3, hc3⟩ := ihE dp j e stk c2 (necAt dp (v + 1)) hg hc2
            exact ⟨c3, Steps_trans (stepAB_elem
                (fun hx => hb3 ((Conf_byte0 hc).symm.trans hx)))
              (Steps_trans hs2 hs3), hc3⟩
          · simp at hg
    have hF : SimF (g + 1) := by
      intro dp j out stk c pc hg hc
      cases pc
      · simp only [gparse] at hg
        split at hg
        · next hb1 =>
          rw [Option.some.injEq] at hg
          subst hg
          exact ⟨_, stepON_close (by rw [Conf_curByte hc, hb1]; decide)
            ((Conf_curByte hc).trans hb1),
            Conf_emit Event.end_object (Conf_adv hc)⟩
        · next hb1 =>
          split at hg
          · next hq =>
            split at hg
            · next j' hj' =>
              obtain ⟨c2, hs2, hc2⟩ :=
                ihA dp (j + 3) j' c.adv.curOff (JKind.kobj :: stk) _ hj'
                  (Conf_adv (Conf_adv (Conf_adv hc)))
              obtain ⟨c3, hs3, hc3⟩ := ihF dp j' out stk c2 (necAt dp (j + 3)) hg hc2
              exact ⟨c3, Steps_trans (stepON_comma ((Conf_curByte hc).trans hq.1)
                  ((Conf_byte1 hc).trans hq.2.1))
                (Steps_trans (stepOC ((Conf_curByte2 hc).trans hq.2.2))
                  (Steps_trans hs2 hs3)), hc3⟩
            · simp at hg
          · simp at hg
      · simp only [gparse] at hg
        split at hg
        · next hb1 =>
          rw [Option.some.injEq] at hg
          subst hg
          exact ⟨_, stepGN_endObj (by rw [Conf_curByte hc, hb1]; decide)
            (by rw [Conf_curByte hc, hb1]; decide)
            ((Conf_curByte hc).trans hb1) hc.2.2.1,
            Conf_emit Event.try_end_object (Conf_adv hc)⟩
        · next hb1 =>
          split at hg
          · next hq =>
            split at hg
            · next j' hj' =>
              obtain ⟨c2, hs2, hc2⟩ :=
                ihA dp (j + 3) j' c.adv.curOff (JKind.kobj :: stk) _ hj'
                  (Conf_emit Event.try_resume_object (Conf_adv (Conf_adv (Conf_adv hc))))
              obtain ⟨c3, hs3, hc3⟩ := ihF dp j' out stk c2 (necAt dp (j + 3)) hg hc2
              exact ⟨c3, Steps_trans (stepGN_strColon ((Conf_curByte hc).trans hq.1)
                  ((Conf_byte1 hc).trans hq.2.1)
                  ((Conf_curByte2 hc).trans hq.2.2) hc.2.2.1)
                (Steps_trans hs2 hs3), hc3⟩
            · simp at hg
          · simp at hg
    have hE : SimE (g + 1) := by
      intro dp j out stk c pc hg hc
      cases pc
      · simp only [gparse] at hg
        split at hg
        · next hb1 =>
          rw [Option.some.injEq] at hg
          subst hg
          exact ⟨_, stepAN_close (by rw [Conf_curByte hc, hb1]; decide)
            ((Conf_curByte hc).trans hb1),
            Conf_emit Event.end_array (Conf_adv hc)⟩
        · next hb1 =>
          split at hg
          · next hb2 =>
            split at hg
            · next hq => exact absurd hq.1 (by decide)
            · next hq =>
              split at hg
              · next e' he' =>
                rw [if_neg (by decide : ¬(false = true))] at hg
                obtain ⟨c2, hs2, hc2⟩ := ihB dp (j + 1) e' (JKind.karr :: stk)
                  c.adv.adv he' (Conf_adv (Conf_adv hc))
                rw [show dp.idxAt (j + 1) = c.adv.curOff from (Conf_off1 hc).symm] at hs2
                obtain ⟨c3, hs3, hc3⟩ := ihE dp e' out stk c2 (necAt dp (j + 1)) hg hc2
                exact ⟨c3, Steps_trans (stepAN_comma ((Conf_curByte hc).trans hb2))
                  (Steps_trans hs2 hs3), hc3⟩
              · simp at hg
          · next hb2 => simp at hg
      · simp only [gparse] at hg
        split at hg
        · next hb1 =>
          rw [Option.some.injEq] at hg
          subst hg
          exact ⟨_, stepGN_endArr (by rw [Conf_curByte hc, hb1]; decide)
            ((Conf_curByte hc).trans hb1) hc.2.2.1,
            Conf_emit Event.try_end_array (Conf_adv hc)⟩
        · next hb1 =>
          split at hg
          · next hb2 =>
            split at hg
            · next hq =>
              split at hg
              · next hb3 =>
                rw [Option.some.injEq] at hg
                subst hg
                exact ⟨_, stepGN_strClose ((Conf_curByte hc).trans hb2)
                  ((Conf_byte1 hc).trans hq.2)
                  (by rw [Conf_curByte2 hc, hb3]; decide)
                  (by rw [Conf_curByte2 hc, hb3]; decide)
                  ((Conf_curByte2 hc).trans hb3) hc.2.2.1,
                  Conf_emit Event.end_array
                    (Conf_emit (Event.try_resume_array (some c.adv.curOff))
                      (Conf_adv (Conf_adv (Conf_adv hc))))⟩
              · simp at hg
            · next hq =>
              have hqq : dp.tok (j + 1) ≠ QUOTE := fun h => hq ⟨trivial, h⟩
              split at hg
              · next e' he' =>
                by_cases harr : dp.tok (j + 1) = LBRACK
                · rw [contAt_arr harr] at hg
                  obtain ⟨c2, hs2, hc2⟩ := ihAB dp (j + 1) e' (JKind.karr :: stk) _ he' harr
                    (Conf_emit (Event.try_resume_array none) (Conf_adv (Conf_adv hc)))
                  obtain ⟨c3, hs3, hc3⟩ := ihE dp e' out stk c2 true hg hc2
                  exact ⟨c3, Steps_trans (stepGN_arr ((Conf_curByte hc).trans hb2)
                      (fun hx => hqq ((Conf_byte1 hc).symm.trans hx))
                      ((Conf_byte1 hc).trans harr) hc.2.2.1)
                    (Steps_trans hs2 hs3), hc3⟩
                · by_cases hobj : dp.tok (j + 1) = LBRACE
                  · rw [contAt_obj hobj] at hg
                    obtain ⟨c2, hs2, hc2⟩ := ihOB dp (j + 1) e' (JKind.karr :: stk) _ he' hobj
                      (Conf_emit (Event.try_resume_array none) (Conf_adv (Conf_adv hc)))
                    obtain ⟨c3, hs3, hc3⟩ := ihE dp e' out stk c2 true hg hc2
                    exact ⟨c3, Steps_trans (stepGN_obj ((Conf_curByte hc).trans hb2)
                        (fun hx => hqq ((Conf_byte1 hc).symm.trans hx))
                        (fun hx => harr ((Conf_byte1 hc).symm.trans hx))
                        ((Conf_byte1 hc).trans hobj) hc.2.2.1)
                      (Steps_trans hs2 hs3), hc3⟩
                  · rw [contAt_prim hobj harr] at hg
                    obtain ⟨c2, hs2, hc2⟩ := ihB dp (j + 1) e' (JKind.karr :: stk) _ he'
                      (Conf_emit (Event.try_resume_array none) (Conf_adv (Conf_adv hc)))
                    rw [show dp.idxAt (j + 1) = c.adv.curOff from (Conf_off1 hc).symm,
                      necAt_prim hobj harr] at hs2
                    obtain ⟨c3, hs3, hc3⟩ := ihE dp e' out stk c2 false hg hc2
                    exact ⟨c3, Steps_trans (stepGN_prim ((Conf_curByte hc).trans hb2)
                        (fun hx => hqq ((Conf_byte1 hc).symm.trans hx))
                        (fun hx => harr ((Conf_byte1 hc).symm.trans hx))
                        (fun hx => hobj ((Conf_byte1 hc).symm.trans hx)) hc.2.2.1)
                      (Steps_trans hs2 hs3), hc3⟩
              · simp at hg
          · next hb2 => simp at hg
    exact ⟨hA, hB, hOB, hAB, hF, hE⟩

/-- One final step from `generic_next`: when the current token is not `,`,
`]` or `}`, the source backs the cursor up one token and falls into
`document_end`. -/
lemma runExit {dp : DomParser} {m : Nat} {st : PState} {c0 c : Ctx}
    (hsteps : Steps modelBuilder st c0 PState.generic_next c)
    (hconf : Conf dp m [] c)
    (h1 : dp.tok m ≠ COMMA) (h2 : dp.tok m ≠ RBRACK) (h3 : dp.tok m ≠ RBRACE) :
    ∃ fuel, ∀ s, run s modelBuilder fuel st c0 =
      some (docEnd s modelBuilder c.adv.back_up) := by
  obtain ⟨k, hk⟩ := hsteps
  refine ⟨0 + 1 + k, fun s => ?_⟩
  rw [hk s (0 + 1)]
  simp only [run]
  rw [if_neg (by rw [Conf_curByte hconf]; exact h1),
    if_neg (by rw [Conf_curByte hconf]; exact h2),
    if_neg (by rw [Conf_curByte hconf]; exact h3)]

/-- With the conforming builder, `document_end` at depth 0 in streaming mode
emits `end_document` and succeeds, persisting the cursor into
`next_structural_index`. -/
lemma docEnd_model_true {c : Ctx} (hd : c.depth = 0) :
    docEnd true modelBuilder c =
      (ErrorCode.SUCCESS, { c with
        dp := { c.dp with next_structural_index := c.cursor },
        trace := c.trace ++ [Event.end_document] }) := by
  simp [docEnd, emit, modelBuilder, finish, hd]

/-- With the conforming builder, `document_end` at depth 0 in non-streaming
mode fails the residual-token check when the cursor has not consumed every
structural token. -/
lemma docEnd_model_false {c : Ctx} (hd : c.depth = 0)
    (hne : ¬c.cursor = c.dp.structural_indexes.length) :
    docEnd false modelBuilder c =
      (ErrorCode.TAPE_ERROR, { c with
        dp := { c.dp with next_structural_index := c.cursor },
        trace := c.trace ++ [Event.end_document] }) := by
  simp [docEnd, emit, modelBuilder, finish, hd, DomParser.n_structural_indexes, hne]

/-- `document_end` reached through the `generic_next` back-up at grammar
position `m` with the stack empty: streaming mode returns `SUCCESS` and
persists `m`. -/
lemma docEnd_exit_stream {dp : DomParser} {m : Nat} {c : Ctx}
    (hconf : Conf dp m [] c) :
    ∃ cf, docEnd true modelBuilder c.adv.back_up = (ErrorCode.SUCCESS, cf) ∧
      cf.dp.next_structural_index = m := by
  have h4 := hconf.2.2.2
  have h2 := hconf.2.1
  have hd : c.adv.back_up.depth = 0 := by simpa [Ctx.adv, Ctx.back_up] using h4
  refine ⟨_, docEnd_model_true hd, ?_⟩
  simp [Ctx.adv, Ctx.back_up]
  omega

/-- `document_end` reached through the `generic_next` back-up at grammar
position `m < n_structural_indexes` with the stack empty: non-streaming mode
returns `TAPE_ERROR` from the residual-token check. -/
lemma docEnd_exit_nostream {dp : DomParser} {m : Nat} {c : Ctx}
    (hconf : Conf dp m [] c) (hm : m < dp.n_structural_indexes) :
    ∃ cf, docEnd false modelBuilder c.adv.back_up = (ErrorCode.TAPE_ERROR, cf) := by
  have h4 := hconf.2.2.2
  have h2 := hconf.2.1
  have h1 := hconf.1
  have hmn := hm
  simp only [DomParser.n_structural_indexes] at hmn
  have hd : c.adv.back_up.depth = 0 := by simpa [Ctx.adv, Ctx.back_up] using h4
  have hne : ¬c.adv.back_up.cursor = c.adv.back_up.dp.structural_indexes.length := by
    simp [Ctx.adv, Ctx.back_up, h1]
    omega
  exact ⟨_, docEnd_model_false hd hne⟩

/-- The machine configuration right after `start_document` and the first
`advance` of the dispatch: cursor 1, empty stack, depth 0. -/
lemma startConf (s : Bool) (dp : DomParser) (hc : (initCtx s dp).cursor = 0) :
    Conf dp 1 [] (emit modelBuilder (initCtx s dp) Event.start_document).2.adv := by
  refine ⟨rfl, ?_, rfl, rfl⟩
  show (initCtx s dp).cursor + 1 = 1
  rw [hc]

/-- C2 (amended): for every session whose tokens start with a complete value
of the machine-compatible grammar `gparse` spanning positions `[0, m)`,
followed by at least one residual structural token that is not `,`, `]` or
`}`, the parse with a conforming builder returns `SUCCESS` in streaming mode
with `next_structural_index` persisted as `m`, and `TAPE_ERROR` in
non-streaming mode. -/
theorem c2_amended_machine_grammar_value
    (dp : DomParser) (g m : Nat)
    (hg : gparse dp g GTag.gval 0 = some m)
    (hm : m < dp.n_structural_indexes)
    (hnext : dp.next_structural_index = 0)
    (h1 : dp.tok m ≠ COMMA) (h2 : dp.tok m ≠ RBRACK) (h3 : dp.tok m ≠ RBRACE) :
    (∃ fuel c', parse true modelBuilder fuel dp = some (ErrorCode.SUCCESS, c') ∧
       c'.dp.next_structural_index = m) ∧
    (∃ fuel c', parse false modelBuilder fuel dp = some (ErrorCode.TAPE_ERROR, c')) := by
  have hend : ∀ s, (initCtx s dp).cursor = 0 → (initCtx s dp).at_end ≠ true := by
    intro s hc hbad
    simp only [Ctx.at_end] at hbad
    rw [hc, Nat.beq_eq_true_eq] at hbad
    simp only [initCtx] at hbad
    omega
  have hct : (initCtx true dp).cursor = 0 := by simp [initCtx, hnext]
  have hcf : (initCtx false dp).cursor = 0 := by simp [initCtx]
  have hbt : (emit modelBuilder (initCtx true dp) Event.start_document).2.adv.dp.byteAt
      ((emit modelBuilder (initCtx true dp) Event.start_document).2.curOff) = dp.tok 0 := by
    simp [emit, initCtx, Ctx.curOff, Ctx.adv, DomParser.tok, hnext]
  have hbf : (emit modelBuilder (initCtx false dp) Event.start_document).2.adv.dp.byteAt
      ((emit modelBuilder (initCtx false dp) Event.start_document).2.curOff) = dp.tok 0 := by
    simp [emit, initCtx, Ctx.curOff, Ctx.adv, DomParser.tok]
  have hsdt : (emit modelBuilder (initCtx true dp) Event.start_document).1 =
      ErrorCode.SUCCESS := rfl
  have hsdf : (emit modelBuilder (initCtx false dp) Event.start_document).1 =
      ErrorCode.SUCCESS := rfl
  by_cases hobj : dp.tok 0 = LBRACE
  · constructor
    · obtain ⟨c', hsteps, hconf'⟩ :=
        (simAll g).2.2.1 dp 0 m [] _ hg hobj (startConf true dp hct)
      obtain ⟨fuel, hrun⟩ := runExit hsteps hconf' h1 h2 h3
      obtain ⟨cf, hde, hni⟩ := docEnd_exit_stream hconf'
      refine ⟨fuel, cf, ?_, hni⟩
      simp only [parse]
      rw [if_neg (hend true hct), tryEmit, if_pos hsdt,
        if_pos (by rw [hbt]; exact hobj), hrun true, hde]
    · obtain ⟨c', hsteps, hconf'⟩ :=
        (simAll g).2.2.1 dp 0 m [] _ hg hobj (startConf false dp hcf)
      obtain ⟨fuel, hrun⟩ := runExit hsteps hconf' h1 h2 h3
      obtain ⟨cf, hde⟩ := docEnd_exit_nostream hconf' hm
      refine ⟨fuel, cf, ?_⟩
      simp only [parse]
      rw [if_neg (hend false hcf), tryEmit, if_pos hsdf,
        if_pos (by rw [hbf]; exact hobj), hrun false, hde]
  · by_cases harr : dp.tok 0 = LBRACK
    · constructor
      · obtain ⟨c', hsteps, hconf'⟩ :=
          (simAll g).2.2.2.1 dp 0 m [] _ hg harr (startConf true dp hct)
        obtain ⟨fuel, hrun⟩ := runExit hsteps hconf' h1 h2 h3
        obtain ⟨cf, hde, hni⟩ := docEnd_exit_stream hconf'
        refine ⟨fuel, cf, ?_, hni⟩
        simp only [parse]
        rw [if_neg (hend true hct), tryEmit, if_pos hsdt,
          if_neg (by rw [hbt]; exact hobj), if_pos (by rw [hbt]; exact harr),
          if_neg (by simp), hrun true, hde]
      · by_cases hlast : dp.tok (dp.n_structural_indexes - 1) = RBRACK
        · obtain ⟨c', hsteps, hconf'⟩ :=
            (simAll g).2.2.2.1 dp 0 m [] _ hg harr (startConf false dp hcf)
          obtain ⟨fuel, hrun⟩ := runExit hsteps hconf' h1 h2 h3
          obtain ⟨cf, hde⟩ := docEnd_exit_nostream hconf' hm
          refine ⟨fuel, cf, ?_⟩
          simp only [parse]
          rw [if_neg (hend false hcf), tryEmit, if_pos hsdf,
            if_neg (by rw [hbf]; exact hobj), if_pos (by rw [hbf]; exact harr),
            if_neg (by simp [emit, initCtx, Ctx.adv, hlast]), hrun false, hde]
        · exact ⟨1, _, by
            simp only [parse]
            rw [if_neg (hend false hcf), tryEmit, if_pos hsdf,
              if_neg (by rw [hbf]; exact hobj), if_pos (by rw [hbf]; exact harr),
              if_pos (show True ∧
                  (emit modelBuilder (initCtx false dp)
                      Event.start_document).2.adv.dp.tok
                    ((emit modelBuilder (initCtx false dp)
                        Event.start_document).2.adv.dp.n_structural_indexes - 1) ≠
                    RBRACK from ⟨trivial, hlast⟩)]⟩
    · have hm1 : m = 1 := by
        cases g with
        | zero => simp [gparse] at hg
        | succ g' =>
          simp only [gparse] at hg
          rw [if_neg hobj, if_neg harr] at hg
          split at hg
          · simp at hg
          · rw [Option.some.injEq] at hg
            omega
      subst hm1
      constructor
      · have hrpt : (emit modelBuilder
            (emit modelBuilder (initCtx true dp) Event.start_document).2.adv
            (Event.root_primitive
              (emit modelBuilder (initCtx true dp) Event.start_document).2.curOff)).1 =
            ErrorCode.SUCCESS := rfl
        exact ⟨1, _, by
          constructor
          · simp only [parse]
            rw [if_neg (hend true hct), tryEmit, if_pos hsdt,
              if_neg (by rw [hbt]; exact hobj), if_neg (by rw [hbt]; exact harr),
              tryEmit, if_pos hrpt,
              docEnd_model_true
                (show _ = 0 by simp [emit, modelBuilder, Ctx.adv, initCtx])]
          · simp [emit, Ctx.adv, initCtx, hnext]⟩
      · have hmn := hm
        simp only [DomParser.n_structural_indexes] at hmn
        have hrpf : (emit modelBuilder
            (emit modelBuilder (initCtx false dp) Event.start_document).2.adv
            (Event.root_primitive
              (emit modelBuilder (initCtx false dp) Event.start_document).2.curOff)).1 =
            ErrorCode.SUCCESS := rfl
        exact ⟨1, _, by
          simp only [parse]
          rw [if_neg (hend false hcf), tryEmit, if_pos hsdf,
            if_neg (by rw [hbf]; exact hobj), if_neg (by rw [hbf]; exact harr),
            tryEmit, if_pos hrpf,
            docEnd_model_false
              (show _ = 0 by simp [emit, modelBuilder, Ctx.adv, initCtx])
              (by simp [emit, Ctx.adv, initCtx]; omega)]⟩

/-- The session for the input `[1],5`: one complete top-level JSON value
`[1]` followed by the residual structural tokens `,` and `5`. -/
def dpTrail : DomParser :=
  { buf := [91, 49, 93, 44, 53], structural_indexes := [0, 1, 2, 3, 4],
    next_structural_index := 0 }

/-- Counterexample for C2: the input `[1],5` has one complete top-level JSON
value (the full-grammar consumer `specConsume` accepts `[1]`, ending at token
3 of 5), yet the streaming parse with the conforming builder returns
`TAPE_ERROR`, not `SUCCESS`: the machine walks past the comma expecting an
enclosing array to resume, and the builder's kind stack is empty. -/
theorem c2_counterexample :
    specConsume dpTrail 10 GTag.gval 0 = some 3 ∧
    3 < dpTrail.n_structural_indexes ∧
    (parse true modelBuilder 40 dpTrail).map Prod.fst = some ErrorCode.TAPE_ERROR ∧
    ErrorCode.TAPE_ERROR ≠ ErrorCode.SUCCESS :=
  ⟨by decide, by decide, by decide, by decide⟩

/-- The session for the input `[1] 7`: a machine-compatible value `[1]`
followed by the residual token `7` (not a separator or closer). -/
def dpResid : DomParser :=
  { buf := [91, 49, 93, 32, 55], structural_indexes := [0, 1, 2, 4],
    next_structural_index := 0 }

/-- Witness for the amended C2 on the input `[1] 7`. -/
theorem c2_witness :
    (gparse dpResid 10 GTag.gval 0 = some 3 ∧
     3 < dpResid.n_structural_indexes ∧
     dpResid.next_structural_index = 0 ∧
     dpResid.tok 3 ≠ COMMA ∧ dpResid.tok 3 ≠ RBRACK ∧ dpResid.tok 3 ≠ RBRACE) ∧
    ((∃ fuel c', parse true modelBuilder fuel dpResid =
        some (ErrorCode.SUCCESS, c') ∧ c'.dp.next_structural_index = 3) ∧
     (∃ fuel c', parse false modelBuilder fuel dpResid =
        some (ErrorCode.TAPE_ERROR, c'))) :=
  ⟨⟨by decide, by decide, by decide, by decide, by decide, by decide⟩,
   c2_amended_machine_grammar_value dpResid 10 3 (by decide) (by decide) (by decide)
     (by decide) (by decide) (by decide)⟩

end Stage2
